import Mathlib

/-!
# LC7981 / HD61830 graphics LCD driver (`avr-lc7981/lc7981.c`)

Shallow embedding of the driver together with a model of the pins it drives and of
the display controller on the other side of the bus.

* Machine integers are `Nat` with explicit truncation (`% 256` for `unsigned char`,
  `% 65536` for `unsigned short` and for the 16-bit `int` of the AVR target).
* The driver is state passing over `State` (MCU pins + controller).  A function returns
  `none` exactly when the busy-flag spin loop of `lcd_wait_busy` would never exit.
-/

namespace Lc7981

/-! ## Constants of the absent header `lc7981.h` -/

/-- Modelled from the spec: `lc7981.h` is absent; display width in pixels (the file header
of `lc7981.c` says the driver is configured for a 160x80 panel). -/
def LCD_WIDTH : Nat := 160

/-- Modelled from the spec: `lc7981.h` is absent; display height in pixels (160x80 panel). -/
def LCD_HEIGHT : Nat := 80

/-- Modelled from the spec: `lc7981.h` is absent; 4-bit instruction code "set cursor low
address" of the HD61830/LC7981 instruction set. -/
def LCD_CMD_CURSOR_LA : Nat := 0x0A

/-- Modelled from the spec: `lc7981.h` is absent; instruction code "set cursor high address". -/
def LCD_CMD_CURSOR_HA : Nat := 0x0B

/-- Modelled from the spec: `lc7981.h` is absent; instruction code "write display data". -/
def LCD_CMD_WRITE_DATA : Nat := 0x0C

/-- Modelled from the spec: `lc7981.h` is absent; instruction code "read display data". -/
def LCD_CMD_READ_DATA : Nat := 0x0D

/-- Modelled from the spec: `lc7981.h` is absent; instruction code "clear bit". -/
def LCD_CMD_CLEAR_BIT : Nat := 0x0E

/-- Modelled from the spec: `lc7981.h` is absent; instruction code "set bit". -/
def LCD_CMD_SET_BIT : Nat := 0x0F

/-! ## Bit reversal (`lc7981.c` lines 52-61) -/

/-- The C function `reverse` (compiled when `LC7981_REVERSED_DATA_PORT` is defined) and the
identity macro `reverse(a) a` (otherwise).  The argument is converted to `unsigned char`
on entry; each of the three statements is evaluated in `int` and truncated back to
`unsigned char` by the assignment to `b`. -/
def reverse (reversed : Bool) (a : Nat) : Nat :=
  if reversed then
    let b := a % 256
    let b := (((b &&& 0xF0) >>> 4) ||| ((b &&& 0x0F) <<< 4)) % 256
    let b := (((b &&& 0xCC) >>> 2) ||| ((b &&& 0x33) <<< 2)) % 256
    let b := (((b &&& 0xAA) >>> 1) ||| ((b &&& 0x55) <<< 1)) % 256
    b
  else a

/-! ## Pins and controller -/

/-- MCU side of the bus: data direction register, output latch and the three control lines. -/
structure Pins where
  ddr : Nat
  port : Nat
  rs : Bool
  rw : Bool
  e : Bool
deriving DecidableEq, Repr

/-- One completed bus transfer as seen by the controller: an instruction with its operand,
or a display-data read with the byte delivered. -/
inductive Xfer where
  | write (ir : Nat) (operand : Nat)
  | read (value : Nat)
deriving DecidableEq, Repr

/-- Modelled from the spec: the display controller is external hardware.  It holds the
display memory (one byte per address), the 16-bit cursor, the instruction register, the
number of further status polls that will still read busy, the busy time an instruction
costs, and the list of transfers completed so far. -/
structure Ctrl where
  mem : Nat → Nat
  cursor : Nat
  ir : Nat
  busy : Nat
  latency : Nat
  log : List Xfer

/-- Whole system state. -/
structure State where
  pins : Pins
  ctrl : Ctrl

/-- Modelled from the spec: board wiring D0 -> D7, D1 -> D6, ..., D7 -> D0 between the MCU
port and the controller data lines (comment at `lc7981.c` lines 48-51). -/
def crossWire (b : Nat) : Nat :=
  (b % 2) * 128 + (b / 2 % 2) * 64 + (b / 4 % 2) * 32 + (b / 8 % 2) * 16
    + (b / 16 % 2) * 8 + (b / 32 % 2) * 4 + (b / 64 % 2) * 2 + (b / 128 % 2)

/-- Modelled from the spec: the eight data lines between MCU and controller, crossed when
the board is the reversed-data-port one. -/
def busWire (reversed : Bool) (b : Nat) : Nat :=
  if reversed then crossWire b else b % 256

/-- Modelled from the spec: the controller executes the instruction in its instruction
register with the operand presented on the bus.  Cursor-low and cursor-high load one half
of the cursor; write-data stores the operand at the cursor and advances the cursor by
one.  Every other instruction only sets a register this model does not track.  The
transfer is logged and the controller becomes busy. -/
def Ctrl.exec (c : Ctrl) (d : Nat) : Ctrl :=
  let c1 : Ctrl :=
    if c.ir = LCD_CMD_CURSOR_LA then { c with cursor := (c.cursor / 256) * 256 + d }
    else if c.ir = LCD_CMD_CURSOR_HA then { c with cursor := d * 256 + c.cursor % 256 }
    else if c.ir = LCD_CMD_WRITE_DATA then
      { c with mem := Function.update c.mem c.cursor d, cursor := (c.cursor + 1) % 65536 }
    else c
  { c1 with busy := c.latency, log := c.log ++ [Xfer.write c.ir d] }

/-- Modelled from the spec: byte the controller drives on its data lines during a read
cycle: the status byte (busy flag in bit 7) when RS is high, the stored byte at the cursor
when RS is low and the instruction register holds read-data. -/
def Ctrl.out (c : Ctrl) (rs : Bool) : Nat :=
  if rs then (if 0 < c.busy then 0x80 else 0)
  else if c.ir = LCD_CMD_READ_DATA then c.mem c.cursor % 256 else 0

/-- Modelled from the spec: what the controller does on a falling edge of E.  Write
cycles (RW low) load the instruction register (RS high) or execute the instruction
(RS low); a data read cycle (RW high, RS low) under read-data advances the cursor by one;
a status read changes nothing. -/
def Ctrl.fallingEdge (c : Ctrl) (rs rw : Bool) (bus : Nat) : Ctrl :=
  if rw then
    if rs then c
    else if c.ir = LCD_CMD_READ_DATA then
      { c with cursor := (c.cursor + 1) % 65536, busy := c.latency,
               log := c.log ++ [Xfer.read (c.mem c.cursor % 256)] }
    else c
  else
    if rs then { c with ir := bus }
    else c.exec bus

/-- Modelled from the spec: macro `lcd_rs_high()` of the absent header: register-select high. -/
def lcd_rs_high (s : State) : State := { s with pins := { s.pins with rs := true } }

/-- Modelled from the spec: macro `lcd_rs_low()` of the absent header. -/
def lcd_rs_low (s : State) : State := { s with pins := { s.pins with rs := false } }

/-- Modelled from the spec: macro `lcd_rw_high()` of the absent header: read mode. -/
def lcd_rw_high (s : State) : State := { s with pins := { s.pins with rw := true } }

/-- Modelled from the spec: macro `lcd_rw_low()` of the absent header: write mode. -/
def lcd_rw_low (s : State) : State := { s with pins := { s.pins with rw := false } }

/-- Modelled from the spec: macro `lcd_enable_high()` of the absent header. -/
def lcd_enable_high (s : State) : State := { s with pins := { s.pins with e := true } }

/-- Modelled from the spec: macro `lcd_enable_low()` of the absent header.  If E was high
this is the falling edge on which the controller latches; the byte it sees is the MCU
output latch (when the port is in output direction) through the board wiring. -/
def lcd_enable_low (reversed : Bool) (s : State) : State :=
  { pins := { s.pins with e := false },
    ctrl := if s.pins.e then
        s.ctrl.fallingEdge s.pins.rs s.pins.rw
          (busWire reversed (if s.pins.ddr = 0xFF then s.pins.port else 0))
      else s.ctrl }

/-- Assignment `LCD_DATA_DDR = v` (8-bit register). -/
def set_LCD_DATA_DDR (v : Nat) (s : State) : State :=
  { s with pins := { s.pins with ddr := v % 256 } }

/-- Assignment `LCD_DATA_PORT = v` (8-bit register). -/
def set_LCD_DATA_PORT (v : Nat) (s : State) : State :=
  { s with pins := { s.pins with port := v % 256 } }

/-- Value of `LCD_DATA_PIN`: with the port in input direction the level the controller
drives through the board wiring while RW and E are high (undriven lines read 0); with
the port in output direction the MCU reads its own latch. -/
def LCD_DATA_PIN (reversed : Bool) (s : State) : Nat :=
  if s.pins.ddr = 0 then
    if s.pins.rw && s.pins.e then busWire reversed (s.ctrl.out s.pins.rs) else 0
  else s.pins.port

/-! ## Bus transport (`lc7981.c` lines 28-149) -/

/-- Function `lcd_strobe_enable` (lines 28-33); the `nop`s only pass time. -/
def lcd_strobe_enable (reversed : Bool) (s : State) : State :=
  lcd_enable_low reversed (lcd_enable_high s)

/-- The loop `do { data = LCD_DATA_PIN; } while (data & reverse(0x80));` of `lcd_wait_busy`
(lines 80-82).  While the controller drives a set busy flag, one poll period elapses per
iteration.  If the sampled bit is set but is not a busy flag that will clear (the lines
are not in status-read configuration), no later sample can differ and the loop never
exits: `none`. -/
def busyLoop (reversed : Bool) (s : State) : Option State :=
  let data := LCD_DATA_PIN reversed s
  if data &&& reverse reversed 0x80 = 0 then some s
  else if _h : (s.pins.ddr = 0 ∧ s.pins.rw = true ∧ s.pins.e = true ∧ s.pins.rs = true)
      ∧ 0 < s.ctrl.busy then
    busyLoop reversed { s with ctrl := { s.ctrl with busy := s.ctrl.busy - 1 } }
  else none
termination_by s.ctrl.busy
decreasing_by
  simp_wf
  omega

/-- Function `lcd_wait_busy` (lines 68-87). -/
def lcd_wait_busy (reversed : Bool) (s : State) : Option State :=
  let s := lcd_rw_high s
  let s := lcd_rs_high s
  let s := set_LCD_DATA_DDR 0 s
  let s := lcd_enable_high s
  match busyLoop reversed s with
  | none => none
  | some s =>
    let s := lcd_enable_low reversed s
    some (set_LCD_DATA_DDR 0xFF s)

/-- Function `lcd_write_command` (lines 94-114).  Both parameters are `unsigned char`. -/
def lcd_write_command (reversed : Bool) (command data : Nat) (s : State) : Option State :=
  let command := command % 256
  let data := data % 256
  match lcd_wait_busy reversed s with
  | none => none
  | some s =>
    let s := lcd_rw_low s
    let s := lcd_rs_high s
    let s := set_LCD_DATA_PORT (reverse reversed (command &&& 0x0F)) s
    let s := lcd_strobe_enable reversed s
    let s := lcd_rw_low s
    let s := lcd_rs_low s
    let s := set_LCD_DATA_PORT (reverse reversed data) s
    some (lcd_strobe_enable reversed s)

/-- Function `lcd_read_data` (lines 120-149); the byte stored through the pointer argument
is returned together with the new state. -/
def lcd_read_data (reversed : Bool) (s : State) : Option (Nat × State) :=
  match lcd_wait_busy reversed s with
  | none => none
  | some s =>
    let s := lcd_rw_low s
    let s := lcd_rs_high s
    let s := set_LCD_DATA_PORT (reverse reversed LCD_CMD_READ_DATA) s
    let s := lcd_strobe_enable reversed s
    let s := set_LCD_DATA_DDR 0 s
    let s := lcd_rw_high s
    let s := lcd_rs_low s
    let s := lcd_enable_high s
    let data := reverse reversed (LCD_DATA_PIN reversed s) % 256
    let s := lcd_enable_low reversed s
    some (data, set_LCD_DATA_DDR 0xFF s)

/-! ## Cursor addressing and framebuffer operations (`lc7981.c` lines 203-264) -/

/-- Function `lcd_graphics_move` (lines 203-212).  `x`, `y` and `pos` are `unsigned short`;
on the AVR target `int` is 16 bits wide, so `(y*LCD_WIDTH)+x` is computed modulo 65536. -/
def lcd_graphics_move (reversed : Bool) (x y : Nat) (s : State) : Option State :=
  let x := x % 65536
  let y := y % 65536
  let pos := ((y * LCD_WIDTH + x) % 65536) / 8
  match lcd_write_command reversed LCD_CMD_CURSOR_LA (pos &&& 0xFF) s with
  | none => none
  | some s => lcd_write_command reversed LCD_CMD_CURSOR_HA (pos >>> 8) s

/-- Function `lcd_graphics_draw_byte` (lines 218-220). -/
def lcd_graphics_draw_byte (reversed : Bool) (data : Nat) (s : State) : Option State :=
  lcd_write_command reversed LCD_CMD_WRITE_DATA data s

/-- Function `lcd_graphics_plot_byte` (lines 228-231). -/
def lcd_graphics_plot_byte (reversed : Bool) (x y data : Nat) (s : State) : Option State :=
  match lcd_graphics_move reversed x y s with
  | none => none
  | some s => lcd_graphics_draw_byte reversed data s

/-- Function `lcd_graphics_plot_pixel` (lines 239-252).  `PIXEL_ON` is a constant of the
absent header and is taken as a parameter; `state` and the local `pos` are
`unsigned char`. -/
def lcd_graphics_plot_pixel (reversed : Bool) (PIXEL_ON : Nat) (x y state : Nat) (s : State) :
    Option State :=
  let x := x % 65536
  let state := state % 256
  match lcd_graphics_move reversed x y s with
  | none => none
  | some s =>
    let pos := (x % 8) % 256
    if state = PIXEL_ON then lcd_write_command reversed LCD_CMD_SET_BIT pos s
    else lcd_write_command reversed LCD_CMD_CLEAR_BIT pos s

/-- The loop `for (i = 0; i < ((LCD_WIDTH*LCD_HEIGHT)/8); i++) lcd_graphics_draw_byte(0x00);`
of `lcd_graphics_clear` (lines 262-263), entered with the current value of the
`unsigned short` counter `i`. -/
def clearLoop (reversed : Bool) (i : Nat) (s : State) : Option State :=
  if _h : i < (LCD_WIDTH * LCD_HEIGHT) / 8 then
    match lcd_graphics_draw_byte reversed 0x00 s with
    | none => none
    | some s => clearLoop reversed ((i + 1) % 65536) s
  else some s
termination_by (LCD_WIDTH * LCD_HEIGHT) / 8 - i
decreasing_by
  simp only [LCD_WIDTH, LCD_HEIGHT] at *
  omega

/-- Function `lcd_graphics_clear` (lines 257-264). -/
def lcd_graphics_clear (reversed : Bool) (s : State) : Option State :=
  match lcd_graphics_move reversed 0 0 s with
  | none => none
  | some s => clearLoop reversed 0 s

/-! ## Scroll (`lc7981.c` lines 270-305) -/

/-- The loop `for (j=0; j < LCD_WIDTH/8; j++) lcd_read_data(&data[j]);` (lines 283-285),
entered with the current `unsigned char` counter `j` and the current contents of the
local array `data`. -/
def readLineLoop (reversed : Bool) (j : Nat) (data : Nat → Nat) (s : State) :
    Option ((Nat → Nat) × State) :=
  if _h : j < LCD_WIDTH / 8 then
    match lcd_read_data reversed s with
    | none => none
    | some (b, s) => readLineLoop reversed ((j + 1) % 256) (Function.update data j b) s
  else some (data, s)
termination_by LCD_WIDTH / 8 - j
decreasing_by
  simp only [LCD_WIDTH] at *
  omega

/-- The loop `for (j=0; j < LCD_WIDTH/8; j++) lcd_write_command(LCD_CMD_WRITE_DATA, data[j]);`
(lines 291-293). -/
def writeLineLoop (reversed : Bool) (j : Nat) (data : Nat → Nat) (s : State) : Option State :=
  if _h : j < LCD_WIDTH / 8 then
    match lcd_write_command reversed LCD_CMD_WRITE_DATA (data j) s with
    | none => none
    | some s => writeLineLoop reversed ((j + 1) % 256) data s
  else some s
termination_by LCD_WIDTH / 8 - j
decreasing_by
  simp only [LCD_WIDTH] at *
  omega

/-- The loop `for (j=0; j < LCD_WIDTH/8; j++) lcd_write_command(LCD_CMD_WRITE_DATA, 0);`
(lines 301-303). -/
def zeroLineLoop (reversed : Bool) (j : Nat) (s : State) : Option State :=
  if _h : j < LCD_WIDTH / 8 then
    match lcd_write_command reversed LCD_CMD_WRITE_DATA 0 s with
    | none => none
    | some s => zeroLineLoop reversed ((j + 1) % 256) s
  else some s
termination_by LCD_WIDTH / 8 - j
decreasing_by
  simp only [LCD_WIDTH] at *
  omega

/-- Body of the first loop of `lcd_scroll_screen` (lines 277-293) for row `i`: move to the
start of row `i`, one `lcd_read_data(data)` into `data[0]`, the read loop, move to the
start of row `i-lines` (an `int` difference converted to `unsigned short`), the write
loop. -/
def relocateRow (reversed : Bool) (lines i : Nat) (data : Nat → Nat) (s : State) :
    Option ((Nat → Nat) × State) :=
  match lcd_graphics_move reversed 0 i s with
  | none => none
  | some s =>
    match lcd_read_data reversed s with
    | none => none
    | some (b, s) =>
      let data := Function.update data 0 b
      match readLineLoop reversed 0 data s with
      | none => none
      | some (data, s) =>
        match lcd_graphics_move reversed 0 ((((i : Int) - (lines : Int)) % 65536).toNat) s with
        | none => none
        | some s =>
          match writeLineLoop reversed 0 data s with
          | none => none
          | some s => some (data, s)

/-- The first loop `for (i = lines; i < LCD_HEIGHT - lines; i++) ...` of `lcd_scroll_screen`
(lines 275-295), entered with the current `unsigned char` counter `i`.  The guard is
evaluated in `int`, so `LCD_HEIGHT - lines` can be negative. -/
def relocateLoop (reversed : Bool) (lines i : Nat) (data : Nat → Nat) (s : State) :
    Option ((Nat → Nat) × State) :=
  if _h : (i : Int) < (LCD_HEIGHT : Int) - (lines : Int) then
    match relocateRow reversed lines i data s with
    | none => none
    | some (data, s) => relocateLoop reversed lines ((i + 1) % 256) data s
  else some (data, s)
termination_by LCD_HEIGHT - i
decreasing_by
  simp only [LCD_HEIGHT] at *
  omega

/-- The second loop `for (i = LCD_HEIGHT - lines; i < LCD_HEIGHT; i++) ...` of
`lcd_scroll_screen` (lines 298-304), entered with the current `unsigned char` counter. -/
def blankLoop (reversed : Bool) (i : Nat) (s : State) : Option State :=
  if _h : i < LCD_HEIGHT then
    match lcd_graphics_move reversed 0 i s with
    | none => none
    | some s =>
      match zeroLineLoop reversed 0 s with
      | none => none
      | some s => blankLoop reversed ((i + 1) % 256) s
  else some s
termination_by LCD_HEIGHT - i
decreasing_by
  simp only [LCD_HEIGHT] at *
  omega

/-- Function `lcd_scroll_screen` (lines 270-305).  `lines` is `unsigned char`; `data0` is
the indeterminate initial content of the local array `data`.  The initial value of the
second loop counter is the `int` value `LCD_HEIGHT - lines` truncated to
`unsigned char`. -/
def lcd_scroll_screen (reversed : Bool) (lines : Nat) (data0 : Nat → Nat) (s : State) :
    Option State :=
  let lines := lines % 256
  match relocateLoop reversed lines lines data0 s with
  | none => none
  | some (_, s) => blankLoop reversed ((((LCD_HEIGHT : Int) - (lines : Int)) % 256).toNat) s

/-! ## Transfer-level summaries used by the proofs -/

/-- Controller state after one complete `lcd_write_command command data`: the busy flag
has been waited out, the masked command byte is in the instruction register and the
instruction has been executed with the operand. -/
def Ctrl.send (c : Ctrl) (command data : Nat) : Ctrl :=
  Ctrl.exec { c with busy := 0, ir := (command % 256) &&& 0x0F } (data % 256)

/-- Controller state after one complete `lcd_read_data`. -/
def Ctrl.recv (c : Ctrl) : Ctrl :=
  { c with ir := LCD_CMD_READ_DATA, cursor := (c.cursor + 1) % 65536, busy := c.latency,
           log := c.log ++ [Xfer.read (c.mem c.cursor % 256)] }

/-- Pin state in which `lcd_write_command` returns. -/
def pinsAfterWrite (reversed : Bool) (data : Nat) : Pins :=
  { ddr := 0xFF, port := reverse reversed (data % 256) % 256, rs := false, rw := false,
    e := false }

/-- Pin state in which `lcd_read_data` returns. -/
def pinsAfterRead (reversed : Bool) : Pins :=
  { ddr := 0xFF, port := reverse reversed LCD_CMD_READ_DATA % 256, rs := false, rw := true,
    e := false }

/-- Number of instructions with code `ir` among the transfers of a log. -/
def countIr (ir : Nat) (l : List Xfer) : Nat :=
  l.countP (fun t => match t with
    | Xfer.write i _ => i == ir
    | Xfer.read _ => false)

/-- Transfers of one iteration of the blanking loop for row `r`: the two cursor commands
of `lcd_graphics_move(0, r)` and `LCD_WIDTH/8` write-data commands with operand 0. -/
def blankRowLog (r : Nat) : List Xfer :=
  [Xfer.write LCD_CMD_CURSOR_LA (20 * r % 256), Xfer.write LCD_CMD_CURSOR_HA (20 * r / 256)]
    ++ List.replicate 20 (Xfer.write LCD_CMD_WRITE_DATA 0)

/-- Transfers of `k` consecutive iterations of the blanking loop starting at row `i`. -/
def blankLog : Nat → Nat → List Xfer
  | _, 0 => []
  | i, k + 1 => blankRowLog i ++ blankLog (i + 1) k

/-- Transfers of one pass of the first loop of `lcd_scroll_screen(lines)` over row `i`,
started with display memory `m`: the cursor move to row `i`, the read of `data[0]`, the
`LCD_WIDTH/8` reads of the read loop, the cursor move to row `i - lines` and the
`LCD_WIDTH/8` write-data commands. -/
def relocRowLog (m : Nat → Nat) (lines i : Nat) : List Xfer :=
  [Xfer.write LCD_CMD_CURSOR_LA (20 * i % 256), Xfer.write LCD_CMD_CURSOR_HA (20 * i / 256)]
    ++ ([Xfer.read (m (20 * i) % 256)]
    ++ ((List.range' (20 * i + 1) 20).map (fun a => Xfer.read (m a % 256))
    ++ ([Xfer.write LCD_CMD_CURSOR_LA (20 * (i - lines) % 256),
          Xfer.write LCD_CMD_CURSOR_HA (20 * (i - lines) / 256)]
    ++ (List.range' (20 * i + 1) 20).map (fun a => Xfer.write LCD_CMD_WRITE_DATA (m a % 256)))))

/-- Transfers of `k` consecutive passes of the first loop starting at row `i`. -/
def relocLog (m : Nat → Nat) (lines : Nat) : Nat → Nat → List Xfer
  | _, 0 => []
  | i, k + 1 => relocRowLog m lines i ++ relocLog m lines (i + 1) k

/-- Shape of the transfers of a pass that rewrites row `i` in place: cursor move to the
start of row `i`, display-data reads of which the last ones return `vals` (any reads
before them return `pre`), cursor move to the start of row `i` again, and one write-data
command per byte of `vals`, in order, with that byte as operand. -/
def rewriteRowLog (i : Nat) (pre vals : List Nat) : List Xfer :=
  [Xfer.write LCD_CMD_CURSOR_LA (20 * i % 256), Xfer.write LCD_CMD_CURSOR_HA (20 * i / 256)]
    ++ ((pre ++ vals).map Xfer.read
    ++ ([Xfer.write LCD_CMD_CURSOR_LA (20 * i % 256), Xfer.write LCD_CMD_CURSOR_HA (20 * i / 256)]
    ++ vals.map (Xfer.write LCD_CMD_WRITE_DATA)))

/-- Transfers of `k` consecutive in-place rewriting passes starting at row `i`, pass `r`
reading `pre r ++ vals r` and writing `vals r`; nothing follows the last pass. -/
def rewriteLog (pre vals : Nat → List Nat) : Nat → Nat → List Xfer
  | _, 0 => []
  | i, k + 1 => rewriteRowLog i (pre i) (vals i) ++ rewriteLog pre vals (i + 1) k

/-- A concrete state used to evaluate the driver: port in input direction, all control
lines low, controller busy for three more polls, two polls of busy time per instruction,
display memory holding `a % 251` at address `a`, empty log. -/
def demoState : State :=
  { pins := { ddr := 0, port := 0, rs := false, rw := false, e := false },
    ctrl := { mem := fun a => a % 251, cursor := 0, ir := 0, busy := 3, latency := 2, log := [] } }

/-! # Theorems -/

set_option maxRecDepth 100000 in
theorem crossWire_reverse_fin :
    ∀ b : Fin 256, crossWire (reverse true b.val) = b.val ∧ reverse true (crossWire b.val) = b.val
      ∧ reverse true b.val < 256 := by
  decide

theorem busWire_reverse (rev : Bool) (a : Nat) :
    busWire rev (reverse rev a % 256) = a % 256 := by
  cases rev
  · simp [busWire, reverse]
  · have h := crossWire_reverse_fin ⟨a % 256, Nat.mod_lt _ (by norm_num)⟩
    have e : reverse true a = reverse true (a % 256) := by simp [reverse]
    simp only [busWire, if_true]
    rw [e, Nat.mod_eq_of_lt h.2.2]
    exact h.1

theorem reverse_busWire (rev : Bool) (a : Nat) :
    reverse rev (busWire rev (a % 256)) % 256 = a % 256 := by
  cases rev
  · simp [busWire, reverse]
  · have h := crossWire_reverse_fin ⟨a % 256, Nat.mod_lt _ (by norm_num)⟩
    simp only [busWire, if_true]
    rw [h.2.1]
    simp

theorem busyLoop_status (rev : Bool) :
    ∀ (n : Nat) (s : State), s.ctrl.busy = n → s.pins.ddr = 0 → s.pins.rw = true →
      s.pins.e = true → s.pins.rs = true →
      busyLoop rev s = some { s with ctrl := { s.ctrl with busy := 0 } } := by
  intro n
  induction n with
  | zero =>
    intro s hb hd hw he hr
    rw [busyLoop]
    obtain ⟨p, c⟩ := s
    obtain ⟨mem, cursor, ir, busy, latency, log⟩ := c
    simp only at hb hd hw he hr
    subst hb
    cases rev <;> simp [LCD_DATA_PIN, hd, hw, he, hr, Ctrl.out, busWire, crossWire]
  | succ k ih =>
    intro s hb hd hw he hr
    rw [busyLoop]
    have hne : LCD_DATA_PIN rev s &&& reverse rev 0x80 ≠ 0 := by
      cases rev <;> simp [LCD_DATA_PIN, hd, hw, he, hr, Ctrl.out, hb, busWire, crossWire, reverse]
    simp only [hne, if_false]
    have hpos : 0 < s.ctrl.busy := by omega
    rw [dif_pos ⟨⟨hd, hw, he, hr⟩, hpos⟩]
    have h := ih { s with ctrl := { s.ctrl with busy := s.ctrl.busy - 1 } }
      (by simp [hb]) hd hw he hr
    rw [h]

theorem lcd_wait_busy_eq (rev : Bool) (s : State) :
    lcd_wait_busy rev s =
      some { pins := { ddr := 0xFF, port := s.pins.port, rs := true, rw := true, e := false },
             ctrl := { s.ctrl with busy := 0 } } := by
  unfold lcd_wait_busy
  simp only []
  rw [busyLoop_status rev _ _ rfl rfl rfl rfl rfl]
  simp [lcd_enable_low, lcd_enable_high, set_LCD_DATA_DDR, lcd_rs_high, lcd_rw_high,
    Ctrl.fallingEdge]

theorem lcd_write_command_eq (rev : Bool) (command data : Nat) (s : State) :
    lcd_write_command rev command data s =
      some { pins := pinsAfterWrite rev data, ctrl := s.ctrl.send command data } := by
  unfold lcd_write_command
  simp only [lcd_wait_busy_eq]
  have h1 := busWire_reverse rev (command % 256 &&& 0xF)
  have h2 := busWire_reverse rev (data % 256)
  have h3 : (command % 256 &&& 0xF) % 256 = command % 256 &&& 0xF := by
    apply Nat.mod_eq_of_lt
    exact lt_of_le_of_lt Nat.and_le_right (by norm_num)
  rw [h3] at h1
  simp only [Nat.mod_mod] at h2
  simp [lcd_strobe_enable, lcd_enable_low, lcd_enable_high, set_LCD_DATA_DDR,
    set_LCD_DATA_PORT, lcd_rs_high, lcd_rs_low, lcd_rw_low, Ctrl.fallingEdge, h1, h2,
    pinsAfterWrite, Ctrl.send]

theorem lcd_read_data_eq (rev : Bool) (s : State) :
    lcd_read_data rev s =
      some (s.ctrl.mem s.ctrl.cursor % 256,
            { pins := pinsAfterRead rev, ctrl := s.ctrl.recv }) := by
  unfold lcd_read_data
  simp only [lcd_wait_busy_eq]
  have h1 := busWire_reverse rev LCD_CMD_READ_DATA
  have h3 : LCD_CMD_READ_DATA % 256 = LCD_CMD_READ_DATA := by simp [LCD_CMD_READ_DATA]
  rw [h3] at h1
  have h2 := reverse_busWire rev (s.ctrl.mem s.ctrl.cursor)
  simp [lcd_strobe_enable, lcd_enable_low, lcd_enable_high, set_LCD_DATA_DDR,
    set_LCD_DATA_PORT, lcd_rs_high, lcd_rs_low, lcd_rw_low, lcd_rw_high, Ctrl.fallingEdge,
    LCD_DATA_PIN, Ctrl.out, h1, h2, pinsAfterRead, Ctrl.recv]

/-! ## Effect of single transfers on the controller -/

theorem and15_10 : (10 &&& 15 : Nat) = 10 := by decide

theorem and15_11 : (11 &&& 15 : Nat) = 11 := by decide

theorem and15_12 : (12 &&& 15 : Nat) = 12 := by decide

theorem and15_14 : (14 &&& 15 : Nat) = 14 := by decide

theorem and15_15 : (15 &&& 15 : Nat) = 15 := by decide

@[simp] theorem send_cursor_la_mem (c : Ctrl) (d : Nat) :
    (c.send LCD_CMD_CURSOR_LA d).mem = c.mem := by
  simp [Ctrl.send, Ctrl.exec, and15_10, and15_11, and15_12, LCD_CMD_CURSOR_LA]

@[simp] theorem send_cursor_la_cursor (c : Ctrl) (d : Nat) :
    (c.send LCD_CMD_CURSOR_LA d).cursor = (c.cursor / 256) * 256 + d % 256 := by
  simp [Ctrl.send, Ctrl.exec, and15_10, and15_11, and15_12, LCD_CMD_CURSOR_LA]

@[simp] theorem send_cursor_la_log (c : Ctrl) (d : Nat) :
    (c.send LCD_CMD_CURSOR_LA d).log = c.log ++ [Xfer.write LCD_CMD_CURSOR_LA (d % 256)] := by
  simp [Ctrl.send, Ctrl.exec, and15_10, and15_11, and15_12, LCD_CMD_CURSOR_LA]

@[simp] theorem send_cursor_ha_mem (c : Ctrl) (d : Nat) :
    (c.send LCD_CMD_CURSOR_HA d).mem = c.mem := by
  simp [Ctrl.send, Ctrl.exec, and15_10, and15_11, and15_12, LCD_CMD_CURSOR_HA, LCD_CMD_CURSOR_LA]

@[simp] theorem send_cursor_ha_cursor (c : Ctrl) (d : Nat) :
    (c.send LCD_CMD_CURSOR_HA d).cursor = (d % 256) * 256 + c.cursor % 256 := by
  simp [Ctrl.send, Ctrl.exec, and15_10, and15_11, and15_12, LCD_CMD_CURSOR_HA, LCD_CMD_CURSOR_LA]

@[simp] theorem send_cursor_ha_log (c : Ctrl) (d : Nat) :
    (c.send LCD_CMD_CURSOR_HA d).log = c.log ++ [Xfer.write LCD_CMD_CURSOR_HA (d % 256)] := by
  simp [Ctrl.send, Ctrl.exec, and15_10, and15_11, and15_12, LCD_CMD_CURSOR_HA, LCD_CMD_CURSOR_LA]

@[simp] theorem send_write_data_mem (c : Ctrl) (d : Nat) :
    (c.send LCD_CMD_WRITE_DATA d).mem = Function.update c.mem c.cursor (d % 256) := by
  simp [Ctrl.send, Ctrl.exec, and15_10, and15_11, and15_12, LCD_CMD_WRITE_DATA, LCD_CMD_CURSOR_HA, LCD_CMD_CURSOR_LA]

@[simp] theorem send_write_data_cursor (c : Ctrl) (d : Nat) :
    (c.send LCD_CMD_WRITE_DATA d).cursor = (c.cursor + 1) % 65536 := by
  simp [Ctrl.send, Ctrl.exec, and15_10, and15_11, and15_12, LCD_CMD_WRITE_DATA, LCD_CMD_CURSOR_HA, LCD_CMD_CURSOR_LA]

@[simp] theorem send_write_data_log (c : Ctrl) (d : Nat) :
    (c.send LCD_CMD_WRITE_DATA d).log = c.log ++ [Xfer.write LCD_CMD_WRITE_DATA (d % 256)] := by
  simp [Ctrl.send, Ctrl.exec, and15_10, and15_11, and15_12, LCD_CMD_WRITE_DATA, LCD_CMD_CURSOR_HA, LCD_CMD_CURSOR_LA]

theorem send_log (c : Ctrl) (command d : Nat) :
    (c.send command d).log = c.log ++ [Xfer.write (command % 256 &&& 0x0F) (d % 256)] := by
  simp only [Ctrl.send, Ctrl.exec]

/-- The address `lcd_graphics_move` computes always fits the two operand bytes. -/
theorem move_pos_lt (x y : Nat) : ((y % 65536 * LCD_WIDTH + x % 65536) % 65536) / 8 < 8192 := by
  omega

/-- What `lcd_graphics_move` does, for arbitrary arguments: two commands, the memory is
untouched and the cursor holds the computed address. -/
theorem move_spec (rev : Bool) (x y : Nat) (s : State) :
    ∃ s1, lcd_graphics_move rev x y s = some s1
      ∧ s1.pins = pinsAfterWrite rev ((((y % 65536 * LCD_WIDTH + x % 65536) % 65536) / 8) >>> 8)
      ∧ s1.ctrl.mem = s.ctrl.mem
      ∧ s1.ctrl.cursor = ((y % 65536 * LCD_WIDTH + x % 65536) % 65536) / 8
      ∧ s1.ctrl.log = s.ctrl.log ++
          [Xfer.write LCD_CMD_CURSOR_LA ((((y % 65536 * LCD_WIDTH + x % 65536) % 65536) / 8) % 256),
           Xfer.write LCD_CMD_CURSOR_HA ((((y % 65536 * LCD_WIDTH + x % 65536) % 65536) / 8) / 256)] := by
  have hp := move_pos_lt x y
  generalize hpos : ((y % 65536 * LCD_WIDTH + x % 65536) % 65536) / 8 = pos at hp
  have hlo : pos &&& 0xFF = pos % 256 := Nat.and_pow_two_sub_one_eq_mod pos 8
  have hhi : pos >>> 8 = pos / 256 := Nat.shiftRight_eq_div_pow pos 8
  refine ⟨{ pins := pinsAfterWrite rev (pos >>> 8),
             ctrl := (s.ctrl.send LCD_CMD_CURSOR_LA (pos &&& 0xFF)).send LCD_CMD_CURSOR_HA
               (pos >>> 8) }, ?_, rfl, ?_, ?_, ?_⟩
  · simp only [lcd_graphics_move, lcd_write_command_eq, hpos]
  · simp
  · simp only [send_cursor_ha_cursor, send_cursor_la_cursor, hlo, hhi]
    omega
  · simp only [send_cursor_ha_log, send_cursor_la_log, hlo, hhi, List.append_assoc,
      List.singleton_append, Nat.mod_mod]
    have h : pos / 256 % 256 = pos / 256 := by omega
    rw [h]

/-! ## The byte loops -/

theorem clearLoop_spec (rev : Bool) :
    ∀ (k i : Nat) (s : State), i + k = 1600 → s.ctrl.cursor + k < 65536 →
      ∃ s1, clearLoop rev i s = some s1
        ∧ s1.ctrl.cursor = s.ctrl.cursor + k
        ∧ (∀ a, s1.ctrl.mem a =
            if s.ctrl.cursor ≤ a ∧ a < s.ctrl.cursor + k then 0 else s.ctrl.mem a)
        ∧ s1.ctrl.log = s.ctrl.log ++ List.replicate k (Xfer.write LCD_CMD_WRITE_DATA 0) := by
  intro k
  induction k with
  | zero =>
    intro i s hi _
    refine ⟨s, ?_, rfl, ?_, ?_⟩
    · rw [clearLoop, dif_neg]
      simp only [LCD_WIDTH, LCD_HEIGHT]
      omega
    · intro a
      rw [if_neg]
      omega
    · simp
  | succ k ih =>
    intro i s hi hc
    have hlt : i < LCD_WIDTH * LCD_HEIGHT / 8 := by
      simp only [LCD_WIDTH, LCD_HEIGHT]
      omega
    have hmod : (i + 1) % 65536 = i + 1 := by omega
    obtain ⟨s1, h1, hcur, hmem, hlog⟩ :=
      ih (i + 1) { pins := pinsAfterWrite rev 0, ctrl := s.ctrl.send LCD_CMD_WRITE_DATA 0 }
        (by omega) (by simp only [send_write_data_cursor]; omega)
    refine ⟨s1, ?_, ?_, ?_, ?_⟩
    · rw [clearLoop, dif_pos hlt]
      simp only [lcd_graphics_draw_byte, lcd_write_command_eq, hmod]
      exact h1
    · rw [hcur]
      simp only [send_write_data_cursor]
      omega
    · intro a
      rw [hmem a]
      simp only [send_write_data_cursor, send_write_data_mem, Function.update_apply]
      have hm : (s.ctrl.cursor + 1) % 65536 = s.ctrl.cursor + 1 := by omega
      rw [hm]
      by_cases h1 : s.ctrl.cursor + 1 ≤ a ∧ a < s.ctrl.cursor + 1 + k
      · rw [if_pos h1, if_pos (by omega)]
      · rw [if_neg h1]
        by_cases h2 : a = s.ctrl.cursor
        · rw [if_pos h2, if_pos (by omega)]
        · rw [if_neg h2, if_neg (by omega)]
    · rw [hlog]
      simp [List.replicate_succ]

theorem zeroLineLoop_spec (rev : Bool) :
    ∀ (k j : Nat) (s : State), j + k = 20 → s.ctrl.cursor + k < 65536 →
      ∃ s1, zeroLineLoop rev j s = some s1
        ∧ s1.ctrl.cursor = s.ctrl.cursor + k
        ∧ (∀ a, s1.ctrl.mem a =
            if s.ctrl.cursor ≤ a ∧ a < s.ctrl.cursor + k then 0 else s.ctrl.mem a)
        ∧ s1.ctrl.log = s.ctrl.log ++ List.replicate k (Xfer.write LCD_CMD_WRITE_DATA 0) := by
  intro k
  induction k with
  | zero =>
    intro j s hj _
    refine ⟨s, ?_, rfl, ?_, ?_⟩
    · rw [zeroLineLoop, dif_neg]
      simp only [LCD_WIDTH]
      omega
    · intro a
      rw [if_neg]
      omega
    · simp
  | succ k ih =>
    intro j s hj hc
    have hlt : j < LCD_WIDTH / 8 := by
      simp only [LCD_WIDTH]
      omega
    have hmod : (j + 1) % 256 = j + 1 := by omega
    obtain ⟨s1, h1, hcur, hmem, hlog⟩ :=
      ih (j + 1) { pins := pinsAfterWrite rev 0, ctrl := s.ctrl.send LCD_CMD_WRITE_DATA 0 }
        (by omega) (by simp only [send_write_data_cursor]; omega)
    refine ⟨s1, ?_, ?_, ?_, ?_⟩
    · rw [zeroLineLoop, dif_pos hlt]
      simp only [lcd_write_command_eq, hmod]
      exact h1
    · rw [hcur]
      simp only [send_write_data_cursor]
      omega
    · intro a
      rw [hmem a]
      simp only [send_write_data_cursor, send_write_data_mem, Function.update_apply]
      have hm : (s.ctrl.cursor + 1) % 65536 = s.ctrl.cursor + 1 := by omega
      rw [hm]
      by_cases h1 : s.ctrl.cursor + 1 ≤ a ∧ a < s.ctrl.cursor + 1 + k
      · rw [if_pos h1, if_pos (by omega)]
      · rw [if_neg h1]
        by_cases h2 : a = s.ctrl.cursor
        · rw [if_pos h2, if_pos (by omega)]
        · rw [if_neg h2, if_neg (by omega)]
    · rw [hlog]
      simp [List.replicate_succ]

theorem writeLineLoop_spec (rev : Bool) (data : Nat → Nat) :
    ∀ (k j : Nat) (s : State), j + k = 20 → s.ctrl.cursor + k < 65536 →
      ∃ s1, writeLineLoop rev j data s = some s1
        ∧ s1.ctrl.cursor = s.ctrl.cursor + k
        ∧ (∀ a, s1.ctrl.mem a =
            if s.ctrl.cursor ≤ a ∧ a < s.ctrl.cursor + k then data (j + (a - s.ctrl.cursor)) % 256
            else s.ctrl.mem a)
        ∧ s1.ctrl.log = s.ctrl.log ++
            (List.range' j k).map (fun t => Xfer.write LCD_CMD_WRITE_DATA (data t % 256)) := by
  intro k
  induction k with
  | zero =>
    intro j s hj _
    refine ⟨s, ?_, rfl, ?_, ?_⟩
    · rw [writeLineLoop, dif_neg]
      simp only [LCD_WIDTH]
      omega
    · intro a
      rw [if_neg]
      omega
    · simp
  | succ k ih =>
    intro j s hj hc
    have hlt : j < LCD_WIDTH / 8 := by
      simp only [LCD_WIDTH]
      omega
    have hmod : (j + 1) % 256 = j + 1 := by omega
    obtain ⟨s1, h1, hcur, hmem, hlog⟩ :=
      ih (j + 1)
        { pins := pinsAfterWrite rev (data j), ctrl := s.ctrl.send LCD_CMD_WRITE_DATA (data j) }
        (by omega) (by simp only [send_write_data_cursor]; omega)
    refine ⟨s1, ?_, ?_, ?_, ?_⟩
    · rw [writeLineLoop, dif_pos hlt]
      simp only [lcd_write_command_eq, hmod]
      exact h1
    · rw [hcur]
      simp only [send_write_data_cursor]
      omega
    · intro a
      rw [hmem a]
      simp only [send_write_data_cursor, send_write_data_mem, Function.update_apply]
      have hm : (s.ctrl.cursor + 1) % 65536 = s.ctrl.cursor + 1 := by omega
      rw [hm]
      by_cases h1 : s.ctrl.cursor + 1 ≤ a ∧ a < s.ctrl.cursor + 1 + k
      · rw [if_pos h1, if_pos (by omega)]
        have e : j + 1 + (a - (s.ctrl.cursor + 1)) = j + (a - s.ctrl.cursor) := by omega
        rw [e]
      · rw [if_neg h1]
        by_cases h2 : a = s.ctrl.cursor
        · rw [if_pos h2, if_pos (by omega)]
          have e : j + (a - s.ctrl.cursor) = j := by omega
          rw [e]
        · rw [if_neg h2, if_neg (by omega)]
    · rw [hlog]
      simp [List.range'_succ]

@[simp] theorem recv_mem (c : Ctrl) : c.recv.mem = c.mem := rfl

@[simp] theorem recv_cursor (c : Ctrl) : c.recv.cursor = (c.cursor + 1) % 65536 := rfl

@[simp] theorem recv_log (c : Ctrl) :
    c.recv.log = c.log ++ [Xfer.read (c.mem c.cursor % 256)] := rfl

theorem readLineLoop_spec (rev : Bool) :
    ∀ (k j : Nat) (data : Nat → Nat) (s : State), j + k = 20 → s.ctrl.cursor + k < 65536 →
      ∃ d1 s1, readLineLoop rev j data s = some (d1, s1)
        ∧ s1.ctrl.cursor = s.ctrl.cursor + k
        ∧ s1.ctrl.mem = s.ctrl.mem
        ∧ (∀ t, d1 t =
            if j ≤ t ∧ t < j + k then s.ctrl.mem (s.ctrl.cursor + (t - j)) % 256 else data t)
        ∧ s1.ctrl.log = s.ctrl.log ++
            (List.range' s.ctrl.cursor k).map (fun a => Xfer.read (s.ctrl.mem a % 256)) := by
  intro k
  induction k with
  | zero =>
    intro j data s hj _
    refine ⟨data, s, ?_, rfl, rfl, ?_, ?_⟩
    · rw [readLineLoop, dif_neg]
      simp only [LCD_WIDTH]
      omega
    · intro t
      rw [if_neg]
      omega
    · simp
  | succ k ih =>
    intro j data s hj hc
    have hlt : j < LCD_WIDTH / 8 := by
      simp only [LCD_WIDTH]
      omega
    have hmod : (j + 1) % 256 = j + 1 := by omega
    have hm : (s.ctrl.cursor + 1) % 65536 = s.ctrl.cursor + 1 := by omega
    obtain ⟨d1, s1, h1, hcur, hmem, hdat, hlog⟩ :=
      ih (j + 1) (Function.update data j (s.ctrl.mem s.ctrl.cursor % 256))
        { pins := pinsAfterRead rev, ctrl := s.ctrl.recv }
        (by omega) (by simp only [recv_cursor]; omega)
    refine ⟨d1, s1, ?_, ?_, ?_, ?_, ?_⟩
    · rw [readLineLoop, dif_pos hlt]
      simp only [lcd_read_data_eq, hmod]
      exact h1
    · rw [hcur]
      simp only [recv_cursor]
      omega
    · rw [hmem]
      rfl
    · intro t
      rw [hdat t]
      simp only [recv_cursor, recv_mem, Function.update_apply, hm]
      by_cases h1 : j + 1 ≤ t ∧ t < j + 1 + k
      · rw [if_pos h1, if_pos (by omega)]
        have e : s.ctrl.cursor + 1 + (t - (j + 1)) = s.ctrl.cursor + (t - j) := by omega
        rw [e]
      · rw [if_neg h1]
        by_cases h2 : t = j
        · rw [if_pos h2, if_pos (by omega)]
          have e : s.ctrl.cursor + (t - j) = s.ctrl.cursor := by omega
          rw [e]
        · rw [if_neg h2, if_neg (by omega)]
    · rw [hlog]
      simp [List.range'_succ, hm]

/-! ## Counting instructions in a log -/

theorem countIr_append (ir : Nat) (l1 l2 : List Xfer) :
    countIr ir (l1 ++ l2) = countIr ir l1 + countIr ir l2 := by
  simp [countIr, List.countP_append]

theorem countIr_nil (ir : Nat) : countIr ir [] = 0 := rfl

theorem countIr_cons_write (ir c d : Nat) (l : List Xfer) :
    countIr ir (Xfer.write c d :: l) = (if c = ir then 1 else 0) + countIr ir l := by
  by_cases h : c = ir
  · simp [countIr, h, Nat.add_comm]
  · simp [countIr, h]

theorem countIr_cons_read (ir v : Nat) (l : List Xfer) :
    countIr ir (Xfer.read v :: l) = countIr ir l := by
  simp [countIr]

theorem countIr_map_read (ir : Nat) (f : Nat → Nat) (l : List Nat) :
    countIr ir (l.map (fun a => Xfer.read (f a))) = 0 := by
  induction l with
  | nil => rfl
  | cons a l ih =>
    simp only [List.map_cons]
    rw [show Xfer.read (f a) :: l.map (fun a => Xfer.read (f a))
        = [Xfer.read (f a)] ++ l.map (fun a => Xfer.read (f a)) from rfl, countIr_append, ih]
    simp [countIr]

theorem countIr_map_write (ir c : Nat) (f : Nat → Nat) (l : List Nat) :
    countIr ir (l.map (fun t => Xfer.write c (f t))) = if c = ir then l.length else 0 := by
  induction l with
  | nil => simp [countIr]
  | cons a l ih =>
    simp only [List.map_cons]
    rw [show Xfer.write c (f a) :: l.map (fun t => Xfer.write c (f t))
        = [Xfer.write c (f a)] ++ l.map (fun t => Xfer.write c (f t)) from rfl, countIr_append, ih]
    by_cases h : c = ir
    · simp [countIr, h, Nat.add_comm]
    · simp [countIr, h]

theorem countIr_replicate (ir c d k : Nat) :
    countIr ir (List.replicate k (Xfer.write c d)) = if c = ir then k else 0 := by
  induction k with
  | zero => simp [countIr]
  | succ k ih =>
    rw [List.replicate_succ, show Xfer.write c d :: List.replicate k (Xfer.write c d)
        = [Xfer.write c d] ++ List.replicate k (Xfer.write c d) from rfl, countIr_append, ih]
    by_cases h : c = ir
    · simp [countIr, h, Nat.add_comm]
    · simp [countIr, h]

/-! ## Scroll: one relocated row -/

theorem move_row_spec (rev : Bool) (i : Nat) (s : State) (hi : i < 256) :
    ∃ s1, lcd_graphics_move rev 0 i s = some s1
      ∧ s1.ctrl.mem = s.ctrl.mem
      ∧ s1.ctrl.cursor = 20 * i
      ∧ s1.ctrl.log = s.ctrl.log ++
          [Xfer.write LCD_CMD_CURSOR_LA (20 * i % 256), Xfer.write LCD_CMD_CURSOR_HA (20 * i / 256)] := by
  obtain ⟨s1, h1, _, hmem, hcur, hlog⟩ := move_spec rev 0 i s
  have e : ((i % 65536 * LCD_WIDTH + 0 % 65536) % 65536) / 8 = 20 * i := by
    simp only [LCD_WIDTH]
    omega
  rw [e] at hcur hlog
  exact ⟨s1, h1, hmem, hcur, hlog⟩

theorem relocateRow_spec (rev : Bool) (n i : Nat) (data : Nat → Nat) (s : State)
    (hn : n ≤ i) (hi : i < 256) :
    ∃ d1 s1, relocateRow rev n i data s = some (d1, s1)
      ∧ (∀ a, s1.ctrl.mem a =
          if 20 * (i - n) ≤ a ∧ a < 20 * (i - n) + 20 then s.ctrl.mem (a + 20 * n + 1) % 256
          else s.ctrl.mem a)
      ∧ ∃ L, s1.ctrl.log = s.ctrl.log ++ L
          ∧ countIr LCD_CMD_CURSOR_LA L = 2 ∧ countIr LCD_CMD_CURSOR_HA L = 2
          ∧ countIr LCD_CMD_WRITE_DATA L = 20 := by
  obtain ⟨s1, h1, hmem1, hcur1, hlog1⟩ := move_row_spec rev i s hi
  have h2 := lcd_read_data_eq rev s1
  have e1 : (20 * i + 1) % 65536 = 20 * i + 1 := Nat.mod_eq_of_lt (by omega)
  obtain ⟨d3, s3, h3, hcur3, hmem3, hdat3, hlog3⟩ :=
    readLineLoop_spec rev 20 0 (Function.update data 0 (s1.ctrl.mem s1.ctrl.cursor % 256))
      { pins := pinsAfterRead rev, ctrl := s1.ctrl.recv } (by omega)
      (by simp only [recv_cursor, hcur1, e1]; omega)
  have hto : (((i : Int) - (n : Int)) % 65536).toNat = i - n := by omega
  obtain ⟨s4, h4, hmem4, hcur4, hlog4⟩ := move_row_spec rev (i - n) s3 (by omega)
  obtain ⟨s5, h5, _, hmem5, hlog5⟩ := writeLineLoop_spec rev d3 20 0 s4 (by omega) (by omega)
  refine ⟨d3, s5, ?_, ?_, ?_⟩
  · simp only [relocateRow, h1, h2, h3, hto, h4, h5]
  · intro a
    rw [hmem5 a, hcur4, hmem4, hmem3]
    simp only [recv_mem, hmem1]
    by_cases ha : 20 * (i - n) ≤ a ∧ a < 20 * (i - n) + 20
    · rw [if_pos ha, if_pos ha, hdat3]
      rw [if_pos (by omega)]
      simp only [recv_mem, recv_cursor, hmem1, hcur1, Nat.mod_mod]
      have e2 : 20 * i + 1 + (0 + (a - 20 * (i - n)) - 0) = a + 20 * n + 1 := by omega
      rw [e1, e2]
    · rw [if_neg ha, if_neg ha]
  · refine ⟨[Xfer.write LCD_CMD_CURSOR_LA (20 * i % 256),
        Xfer.write LCD_CMD_CURSOR_HA (20 * i / 256)]
        ++ ([Xfer.read (s1.ctrl.mem s1.ctrl.cursor % 256)]
        ++ ((List.range' s1.ctrl.recv.cursor 20).map (fun a => Xfer.read (s1.ctrl.recv.mem a % 256))
        ++ ([Xfer.write LCD_CMD_CURSOR_LA (20 * (i - n) % 256),
              Xfer.write LCD_CMD_CURSOR_HA (20 * (i - n) / 256)]
        ++ (List.range' 0 20).map (fun t => Xfer.write LCD_CMD_WRITE_DATA (d3 t % 256))))),
        ?_, ?_, ?_, ?_⟩
    · rw [hlog5, hlog4, hlog3]
      simp only [recv_log, hlog1, List.append_assoc]
    · simp [countIr_append, countIr_map_read, countIr_map_write, countIr_cons_write,
        countIr_cons_read, countIr_nil, LCD_CMD_CURSOR_LA, LCD_CMD_CURSOR_HA, LCD_CMD_WRITE_DATA]
    · simp [countIr_append, countIr_map_read, countIr_map_write, countIr_cons_write,
        countIr_cons_read, countIr_nil, LCD_CMD_CURSOR_LA, LCD_CMD_CURSOR_HA, LCD_CMD_WRITE_DATA]
    · simp [countIr_append, countIr_map_read, countIr_map_write, countIr_cons_write,
        countIr_cons_read, countIr_nil, LCD_CMD_CURSOR_LA, LCD_CMD_CURSOR_HA, LCD_CMD_WRITE_DATA]

/-! ## Scroll: the two row loops -/

theorem relocateLoop_skip (rev : Bool) (n i : Nat) (data : Nat → Nat) (s : State)
    (h : 80 ≤ i + n) : relocateLoop rev n i data s = some (data, s) := by
  rw [relocateLoop, dif_neg]
  simp only [LCD_HEIGHT]
  omega

theorem relocateLoop_spec (rev : Bool) (n : Nat) :
    ∀ (k i : Nat) (data : Nat → Nat) (s : State), n ≤ i → i + k + n = 80 →
      ∃ d1 s1, relocateLoop rev n i data s = some (d1, s1)
        ∧ (∀ a, s1.ctrl.mem a =
            if 20 * (i - n) ≤ a ∧ a < 20 * (i - n + k) then s.ctrl.mem (a + 20 * n + 1) % 256
            else s.ctrl.mem a)
        ∧ ∃ L, s1.ctrl.log = s.ctrl.log ++ L
            ∧ countIr LCD_CMD_CURSOR_LA L = 2 * k ∧ countIr LCD_CMD_CURSOR_HA L = 2 * k
            ∧ countIr LCD_CMD_WRITE_DATA L = 20 * k := by
  intro k
  induction k with
  | zero =>
    intro i data s _ hk
    refine ⟨data, s, relocateLoop_skip rev n i data s (by omega), ?_, [], by simp, rfl, rfl, rfl⟩
    intro a
    rw [if_neg]
    omega
  | succ k ih =>
    intro i data s hn hk
    have hlt : (i : Int) < (LCD_HEIGHT : Int) - (n : Int) := by
      simp only [LCD_HEIGHT]
      omega
    have hmod : (i + 1) % 256 = i + 1 := by omega
    obtain ⟨d1, s1, h1, hmem1, L1, hlog1, hla1, hha1, hw1⟩ :=
      relocateRow_spec rev n i data s hn (by omega)
    obtain ⟨d2, s2, h2, hmem2, L2, hlog2, hla2, hha2, hw2⟩ :=
      ih (i + 1) d1 s1 (by omega) (by omega)
    refine ⟨d2, s2, ?_, ?_, L1 ++ L2, ?_, ?_, ?_, ?_⟩
    · rw [relocateLoop, dif_pos hlt]
      simp only [h1, hmod]
      exact h2
    · intro a
      rw [hmem2 a]
      by_cases ha : 20 * (i + 1 - n) ≤ a ∧ a < 20 * (i + 1 - n + k)
      · rw [if_pos ha, if_pos (by omega), hmem1, if_neg (by omega)]
      · rw [if_neg ha, hmem1]
        by_cases hb : 20 * (i - n) ≤ a ∧ a < 20 * (i - n) + 20
        · rw [if_pos hb, if_pos (by omega)]
        · rw [if_neg hb, if_neg (by omega)]
    · rw [hlog2, hlog1, List.append_assoc]
    · rw [countIr_append, hla1, hla2]
      omega
    · rw [countIr_append, hha1, hha2]
      omega
    · rw [countIr_append, hw1, hw2]
      omega

theorem blankLoop_skip (rev : Bool) (i : Nat) (s : State) (h : 80 ≤ i) :
    blankLoop rev i s = some s := by
  rw [blankLoop, dif_neg]
  simp only [LCD_HEIGHT]
  omega

theorem blankLoop_spec (rev : Bool) :
    ∀ (k i : Nat) (s : State), i + k = 80 →
      ∃ s1, blankLoop rev i s = some s1
        ∧ (∀ a, s1.ctrl.mem a = if 20 * i ≤ a ∧ a < 1600 then 0 else s.ctrl.mem a)
        ∧ s1.ctrl.log = s.ctrl.log ++ blankLog i k := by
  intro k
  induction k with
  | zero =>
    intro i s hk
    refine ⟨s, blankLoop_skip rev i s (by omega), ?_, by simp [blankLog]⟩
    intro a
    rw [if_neg]
    omega
  | succ k ih =>
    intro i s hk
    have hlt : i < LCD_HEIGHT := by
      simp only [LCD_HEIGHT]
      omega
    have hmod : (i + 1) % 256 = i + 1 := by omega
    obtain ⟨s1, h1, hmem1, hcur1, hlog1⟩ := move_row_spec rev i s (by omega)
    obtain ⟨s2, h2, _, hmem2, hlog2⟩ := zeroLineLoop_spec rev 20 0 s1 (by omega) (by omega)
    obtain ⟨s3, h3, hmem3, hlog3⟩ := ih (i + 1) s2 (by omega)
    refine ⟨s3, ?_, ?_, ?_⟩
    · rw [blankLoop, dif_pos hlt]
      simp only [h1, h2, hmod]
      exact h3
    · intro a
      rw [hmem3 a, hmem2 a, hcur1, hmem1]
      by_cases ha : 20 * (i + 1) ≤ a ∧ a < 1600
      · rw [if_pos ha, if_pos (by omega)]
      · rw [if_neg ha]
        by_cases hb : 20 * i ≤ a ∧ a < 20 * i + 20
        · rw [if_pos hb, if_pos (by omega)]
        · rw [if_neg hb, if_neg (by omega)]
    · rw [hlog3, hlog2, hlog1]
      simp [blankLog, blankRowLog]

/-! ## Scroll as a whole -/

/-- What `lcd_scroll_screen(n)` does to the controller memory for `n ≤ LCD_HEIGHT`: the
rows `n .. 79-n` are copied `n` rows up from one byte further right (the read before the
read loop has advanced the cursor), the rows `80-2n .. 79-n` keep their bytes, the rows
`80-n .. 79` are zeroed.  The blanking transfers are the last ones in the log. -/
theorem scroll_spec (rev : Bool) (n : Nat) (data0 : Nat → Nat) (s : State) (hn : n ≤ 80) :
    ∃ d1 s1 s2, relocateLoop rev n n data0 s = some (d1, s1)
      ∧ lcd_scroll_screen rev n data0 s = some s2
      ∧ (∀ a, s2.ctrl.mem a =
          if a < 20 * (80 - 2 * n) then s.ctrl.mem (a + 20 * n + 1) % 256
          else if 20 * (80 - n) ≤ a ∧ a < 1600 then 0 else s.ctrl.mem a)
      ∧ ∃ L, s1.ctrl.log = s.ctrl.log ++ L
          ∧ s2.ctrl.log = s.ctrl.log ++ L ++ blankLog (80 - n) n
          ∧ countIr LCD_CMD_CURSOR_LA L = 2 * (80 - 2 * n)
          ∧ countIr LCD_CMD_CURSOR_HA L = 2 * (80 - 2 * n)
          ∧ countIr LCD_CMD_WRITE_DATA L = 20 * (80 - 2 * n) := by
  have hmod : n % 256 = n := Nat.mod_eq_of_lt (by omega)
  have hto : (((LCD_HEIGHT : Int) - (n : Int)) % 256).toNat = 80 - n := by
    simp only [LCD_HEIGHT]
    omega
  have hreloc : ∃ d1 s1, relocateLoop rev n n data0 s = some (d1, s1)
      ∧ (∀ a, s1.ctrl.mem a =
          if a < 20 * (80 - 2 * n) then s.ctrl.mem (a + 20 * n + 1) % 256 else s.ctrl.mem a)
      ∧ ∃ L, s1.ctrl.log = s.ctrl.log ++ L
          ∧ countIr LCD_CMD_CURSOR_LA L = 2 * (80 - 2 * n)
          ∧ countIr LCD_CMD_CURSOR_HA L = 2 * (80 - 2 * n)
          ∧ countIr LCD_CMD_WRITE_DATA L = 20 * (80 - 2 * n) := by
    by_cases h2 : 2 * n ≤ 80
    · obtain ⟨d1, s1, h1, hmem1, L, hlog, hla, hha, hw⟩ :=
        relocateLoop_spec rev n (80 - 2 * n) n data0 s (le_refl n) (by omega)
      refine ⟨d1, s1, h1, ?_, L, hlog, hla, hha, hw⟩
      intro a
      rw [hmem1 a]
      by_cases ha : a < 20 * (80 - 2 * n)
      · rw [if_pos ha, if_pos (by omega)]
      · rw [if_neg ha, if_neg (by omega)]
    · have e : 80 - 2 * n = 0 := by omega
      refine ⟨data0, s, relocateLoop_skip rev n n data0 s (by omega), ?_, [], by simp, ?_, ?_, ?_⟩
      · intro a
        rw [if_neg (by omega)]
      · rw [e]
        rfl
      · rw [e]
        rfl
      · rw [e]
        rfl
  obtain ⟨d1, s1, h1, hmem1, L, hlog1, hla, hha, hw⟩ := hreloc
  obtain ⟨s2, h2, hmem2, hlog2⟩ := blankLoop_spec rev n (80 - n) s1 (by omega)
  refine ⟨d1, s1, s2, h1, ?_, ?_, L, hlog1, ?_, hla, hha, hw⟩
  · simp only [lcd_scroll_screen, hmod, h1, hto]
    exact h2
  · intro a
    rw [hmem2 a, hmem1 a]
    by_cases ha : 20 * (80 - n) ≤ a ∧ a < 1600
    · rw [if_pos ha, if_neg (by omega), if_pos ha]
    · rw [if_neg ha, if_neg ha]
  · rw [hlog2, hlog1]

/-- For `LCD_HEIGHT < n ≤ 255` neither loop of `lcd_scroll_screen(n)` is entered. -/
theorem scroll_beyond (rev : Bool) (n : Nat) (data0 : Nat → Nat) (s : State)
    (h1 : 80 < n) (h2 : n ≤ 255) : lcd_scroll_screen rev n data0 s = some s := by
  have hmod : n % 256 = n := Nat.mod_eq_of_lt (by omega)
  have hto : (((LCD_HEIGHT : Int) - (n : Int)) % 256).toNat = 336 - n := by
    simp only [LCD_HEIGHT]
    omega
  simp only [lcd_scroll_screen, hmod, relocateLoop_skip rev n n data0 s (by omega), hto]
  exact blankLoop_skip rev _ s (by omega)

/-- What `lcd_graphics_clear` does, for every state. -/
theorem clear_spec (rev : Bool) (s : State) :
    ∃ s0 s1, lcd_graphics_move rev 0 0 s = some s0 ∧ s0.ctrl.cursor = 0
      ∧ lcd_graphics_clear rev s = some s1
      ∧ (∀ a, s1.ctrl.mem a = if a < 1600 then 0 else s.ctrl.mem a)
      ∧ s1.ctrl.log = s.ctrl.log
          ++ [Xfer.write LCD_CMD_CURSOR_LA 0, Xfer.write LCD_CMD_CURSOR_HA 0]
          ++ List.replicate 1600 (Xfer.write LCD_CMD_WRITE_DATA 0) := by
  obtain ⟨s0, h0, hmem0, hcur0, hlog0⟩ := move_row_spec rev 0 s (by omega)
  obtain ⟨s1, h1, _, hmem1, hlog1⟩ := clearLoop_spec rev 1600 0 s0 (by omega) (by omega)
  refine ⟨s0, s1, h0, hcur0, ?_, ?_, ?_⟩
  · simp only [lcd_graphics_clear, h0]
    exact h1
  · intro a
    rw [hmem1 a, hcur0, hmem0]
    by_cases ha : a < 1600
    · rw [if_pos ha, if_pos (by omega)]
    · rw [if_neg ha, if_neg (by omega)]
  · rw [hlog1, hlog0]

/-! ## Scroll: the exact transfers of the first loop -/

theorem relocateRow_log (rev : Bool) (n i : Nat) (data : Nat → Nat) (s : State)
    (hn : n ≤ i) (hi : i < 256) :
    ∃ d1 s1, relocateRow rev n i data s = some (d1, s1)
      ∧ (∀ a, s1.ctrl.mem a =
          if 20 * (i - n) ≤ a ∧ a < 20 * (i - n) + 20 then s.ctrl.mem (a + 20 * n + 1) % 256
          else s.ctrl.mem a)
      ∧ s1.ctrl.log = s.ctrl.log ++ relocRowLog s.ctrl.mem n i := by
  obtain ⟨s1, h1, hmem1, hcur1, hlog1⟩ := move_row_spec rev i s hi
  have h2 := lcd_read_data_eq rev s1
  have e1 : (20 * i + 1) % 65536 = 20 * i + 1 := Nat.mod_eq_of_lt (by omega)
  obtain ⟨d3, s3, h3, hcur3, hmem3, hdat3, hlog3⟩ :=
    readLineLoop_spec rev 20 0 (Function.update data 0 (s1.ctrl.mem s1.ctrl.cursor % 256))
      { pins := pinsAfterRead rev, ctrl := s1.ctrl.recv } (by omega)
      (by simp only [recv_cursor, hcur1, e1]; omega)
  have hto : (((i : Int) - (n : Int)) % 65536).toNat = i - n := by omega
  obtain ⟨s4, h4, hmem4, hcur4, hlog4⟩ := move_row_spec rev (i - n) s3 (by omega)
  obtain ⟨s5, h5, _, hmem5, hlog5⟩ := writeLineLoop_spec rev d3 20 0 s4 (by omega) (by omega)
  have hd3 : ∀ t, t < 20 → d3 t = s.ctrl.mem (20 * i + 1 + t) % 256 := by
    intro t ht
    rw [hdat3 t, if_pos (by omega)]
    simp only [recv_mem, recv_cursor, hmem1, hcur1, e1, Nat.sub_zero]
  refine ⟨d3, s5, ?_, ?_, ?_⟩
  · simp only [relocateRow, h1, h2, h3, hto, h4, h5]
  · intro a
    rw [hmem5 a, hcur4, hmem4, hmem3]
    simp only [recv_mem, hmem1]
    by_cases ha : 20 * (i - n) ≤ a ∧ a < 20 * (i - n) + 20
    · rw [if_pos ha, if_pos ha, hd3 _ (by omega), Nat.mod_mod]
      have e2 : 20 * i + 1 + (0 + (a - 20 * (i - n))) = a + 20 * n + 1 := by omega
      rw [e2]
    · rw [if_neg ha, if_neg ha]
  · have hr : (List.range' s1.ctrl.recv.cursor 20).map
          (fun a => Xfer.read (s1.ctrl.recv.mem a % 256))
        = (List.range' (20 * i + 1) 20).map (fun a => Xfer.read (s.ctrl.mem a % 256)) := by
      rw [recv_cursor, recv_mem, hcur1, e1, hmem1]
    have hw : (List.range' 0 20).map (fun t => Xfer.write LCD_CMD_WRITE_DATA (d3 t % 256))
        = (List.range' (20 * i + 1) 20).map
            (fun a => Xfer.write LCD_CMD_WRITE_DATA (s.ctrl.mem a % 256)) := by
      have hsh : List.range' (20 * i + 1) 20 = (List.range' 0 20).map (fun t => 20 * i + 1 + t) :=
        (List.map_add_range' (20 * i + 1) 0 20 1).symm
      rw [hsh, List.map_map]
      apply List.map_congr_left
      intro t ht
      have ht2 : t < 20 := by
        have := List.mem_range'_1.mp ht
        omega
      simp only [Function.comp_apply, hd3 t ht2, Nat.mod_mod]
    have hrd : s1.ctrl.mem s1.ctrl.cursor % 256 = s.ctrl.mem (20 * i) % 256 := by
      rw [hmem1, hcur1]
    rw [hlog5, hlog4, hlog3, hw]
    show (s1.ctrl.recv.log ++ (List.range' s1.ctrl.recv.cursor 20).map
        (fun a => Xfer.read (s1.ctrl.recv.mem a % 256))) ++ _ ++ _ = _
    rw [hr, recv_log, hlog1, hrd]
    simp only [relocRowLog, List.append_assoc]

theorem relocRowLog_congr (m1 m2 : Nat → Nat) (n i : Nat)
    (h : ∀ a, 20 * i ≤ a → m1 a = m2 a) : relocRowLog m1 n i = relocRowLog m2 n i := by
  have hr : (List.range' (20 * i + 1) 20).map (fun a => Xfer.read (m1 a % 256))
      = (List.range' (20 * i + 1) 20).map (fun a => Xfer.read (m2 a % 256)) := by
    apply List.map_congr_left
    intro a ha
    have := List.mem_range'_1.mp ha
    rw [h a (by omega)]
  have hw : (List.range' (20 * i + 1) 20).map (fun a => Xfer.write LCD_CMD_WRITE_DATA (m1 a % 256))
      = (List.range' (20 * i + 1) 20).map
          (fun a => Xfer.write LCD_CMD_WRITE_DATA (m2 a % 256)) := by
    apply List.map_congr_left
    intro a ha
    have := List.mem_range'_1.mp ha
    rw [h a (by omega)]
  simp only [relocRowLog, hr, hw, h (20 * i) (le_refl _)]

theorem relocLog_congr (n : Nat) :
    ∀ (k i : Nat) (m1 m2 : Nat → Nat), (∀ a, 20 * i ≤ a → m1 a = m2 a) →
      relocLog m1 n i k = relocLog m2 n i k := by
  intro k
  induction k with
  | zero =>
    intro i m1 m2 _
    rfl
  | succ k ih =>
    intro i m1 m2 h
    simp only [relocLog]
    rw [relocRowLog_congr m1 m2 n i h, ih (i + 1) m1 m2 (fun a ha => h a (by omega))]

theorem relocateLoop_log (rev : Bool) (n : Nat) :
    ∀ (k i : Nat) (data : Nat → Nat) (s : State), n ≤ i → i + k + n = 80 →
      ∃ d1 s1, relocateLoop rev n i data s = some (d1, s1)
        ∧ (∀ a, s1.ctrl.mem a =
            if 20 * (i - n) ≤ a ∧ a < 20 * (i - n + k) then s.ctrl.mem (a + 20 * n + 1) % 256
            else s.ctrl.mem a)
        ∧ s1.ctrl.log = s.ctrl.log ++ relocLog s.ctrl.mem n i k := by
  intro k
  induction k with
  | zero =>
    intro i data s _ hk
    refine ⟨data, s, relocateLoop_skip rev n i data s (by omega), ?_, by simp [relocLog]⟩
    intro a
    rw [if_neg]
    omega
  | succ k ih =>
    intro i data s hn hk
    have hlt : (i : Int) < (LCD_HEIGHT : Int) - (n : Int) := by
      simp only [LCD_HEIGHT]
      omega
    have hmod : (i + 1) % 256 = i + 1 := by omega
    obtain ⟨d1, s1, h1, hmem1, hlog1⟩ := relocateRow_log rev n i data s hn (by omega)
    obtain ⟨d2, s2, h2, hmem2, hlog2⟩ := ih (i + 1) d1 s1 (by omega) (by omega)
    refine ⟨d2, s2, ?_, ?_, ?_⟩
    · rw [relocateLoop, dif_pos hlt]
      simp only [h1, hmod]
      exact h2
    · intro a
      rw [hmem2 a]
      by_cases ha : 20 * (i + 1 - n) ≤ a ∧ a < 20 * (i + 1 - n + k)
      · rw [if_pos ha, if_pos (by omega), hmem1, if_neg (by omega)]
      · rw [if_neg ha, hmem1]
        by_cases hb : 20 * (i - n) ≤ a ∧ a < 20 * (i - n) + 20
        · rw [if_pos hb, if_pos (by omega)]
        · rw [if_neg hb, if_neg (by omega)]
    · have hc : relocLog s1.ctrl.mem n (i + 1) k = relocLog s.ctrl.mem n (i + 1) k := by
        apply relocLog_congr
        intro a ha
        rw [hmem1 a, if_neg (by omega)]
      rw [hlog2, hlog1, hc, List.append_assoc]
      rfl

/-- With `lines = 0` every pass of the first loop has the shape of an in-place rewrite of
its row. -/
theorem relocLog_zero_eq_rewriteLog (m : Nat → Nat) :
    ∀ (k i : Nat), relocLog m 0 i k =
      rewriteLog (fun r => [m (20 * r) % 256])
        (fun r => (List.range' (20 * r + 1) 20).map (fun a => m a % 256)) i k := by
  intro k
  induction k with
  | zero =>
    intro i
    rfl
  | succ k ih =>
    intro i
    simp only [relocLog, rewriteLog, ih (i + 1)]
    congr 1

/-! ## The claims -/

/-- C1 (code defect, evaluated): `lcd_scroll_screen(1)` on `demoState`.  Scrolling up by one
row should leave in row 78 what row 79 held (first byte 74) and in row 0 what row 1 held
(first byte 20).  The first loop stops at `LCD_HEIGHT - lines`, so row 79 is never copied
and row 78 keeps its own first byte 54; and the read issued before the read loop makes
every copied row start one byte late, so row 0 starts with 21. -/
theorem scroll_one_row_78_not_relocated :
    ∃ s2, lcd_scroll_screen false 1 (fun _ => 0) demoState = some s2
      ∧ s2.ctrl.mem (20 * 78) = 54 ∧ demoState.ctrl.mem (20 * 79) = 74
      ∧ s2.ctrl.mem 0 = 21 ∧ demoState.ctrl.mem 20 = 20 := by
  obtain ⟨_, _, s2, _, h2, hmem, _⟩ := scroll_spec false 1 (fun _ => 0) demoState (by omega)
  refine ⟨s2, h2, ?_, rfl, ?_, rfl⟩
  · rw [hmem]
    simp [demoState]
  · rw [hmem]
    simp [demoState]

/-- C2: for `x < LCD_WIDTH` and `y < LCD_HEIGHT`, `lcd_graphics_move(x, y)` issues exactly two
commands, set-cursor-low-address with operand `pos & 0xFF` then set-cursor-high-address
with operand `pos >> 8`, where `pos = ((y*LCD_WIDTH)+x)/8`; the sum does not overflow 16
bits, the two operands recombine to `pos`, and the controller cursor afterwards is `pos`
(the display memory is untouched). -/
theorem lcd_graphics_move_addressing (rev : Bool) (x y : Nat) (s : State)
    (hx : x < LCD_WIDTH) (hy : y < LCD_HEIGHT) :
    ∃ s1, lcd_graphics_move rev x y s = some s1
      ∧ s1.ctrl.log = s.ctrl.log ++
          [Xfer.write LCD_CMD_CURSOR_LA (((y * LCD_WIDTH + x) / 8) &&& 0xFF),
           Xfer.write LCD_CMD_CURSOR_HA (((y * LCD_WIDTH + x) / 8) >>> 8)]
      ∧ y * LCD_WIDTH + x < 65536
      ∧ (((y * LCD_WIDTH + x) / 8) >>> 8) * 256 + (((y * LCD_WIDTH + x) / 8) &&& 0xFF)
          = (y * LCD_WIDTH + x) / 8
      ∧ s1.ctrl.cursor = (y * LCD_WIDTH + x) / 8
      ∧ s1.ctrl.mem = s.ctrl.mem := by
  obtain ⟨s1, h1, _, hmem, hcur, hlog⟩ := move_spec rev x y s
  simp only [LCD_WIDTH, LCD_HEIGHT] at hx hy
  have e : ((y % 65536 * LCD_WIDTH + x % 65536) % 65536) / 8 = (y * LCD_WIDTH + x) / 8 := by
    simp only [LCD_WIDTH]
    omega
  rw [e] at hcur hlog
  have hlo : ((y * LCD_WIDTH + x) / 8) &&& 0xFF = (y * LCD_WIDTH + x) / 8 % 256 :=
    Nat.and_pow_two_sub_one_eq_mod _ 8
  have hhi : ((y * LCD_WIDTH + x) / 8) >>> 8 = (y * LCD_WIDTH + x) / 8 / 256 :=
    Nat.shiftRight_eq_div_pow _ 8
  refine ⟨s1, h1, ?_, ?_, ?_, hcur, hmem⟩
  · rw [hlog, hlo, hhi]
  · simp only [LCD_WIDTH]
    omega
  · rw [hlo, hhi]
    omega

/-- C2 at `(0, 0)` and at `(LCD_WIDTH-8, 1)`: the programmed cursor is `0`, respectively
`LCD_WIDTH/8 + (LCD_WIDTH-8)/8`. -/
theorem lcd_graphics_move_addressing_witness :
    (LCD_WIDTH - 8 < LCD_WIDTH ∧ 1 < LCD_HEIGHT)
      ∧ (∃ s1, lcd_graphics_move false 0 0 demoState = some s1 ∧ s1.ctrl.cursor = 0)
      ∧ (∃ s1, lcd_graphics_move true (LCD_WIDTH - 8) 1 demoState = some s1
          ∧ s1.ctrl.cursor = LCD_WIDTH / 8 + (LCD_WIDTH - 8) / 8) := by
  refine ⟨by decide, ?_, ?_⟩
  · obtain ⟨s1, h1, _, _, _, hcur, _⟩ :=
      lcd_graphics_move_addressing false 0 0 demoState (by decide) (by decide)
    exact ⟨s1, h1, by rw [hcur]; rfl⟩
  · obtain ⟨s1, h1, _, _, _, hcur, _⟩ :=
      lcd_graphics_move_addressing true (LCD_WIDTH - 8) 1 demoState (by decide) (by decide)
    exact ⟨s1, h1, by rw [hcur]; rfl⟩

/-- C3: with and without the reversed data port, for every byte `b` and every `(x, y)`,
`lcd_graphics_plot_byte(x, y, b)` followed by `lcd_graphics_move(x, y)` and `lcd_read_data`
reads back `b` (all three calls return).  The coordinates need not even be in range. -/
theorem plot_byte_read_back (rev : Bool) (x y b : Nat) (s : State) (hb : b < 256) :
    ∃ s1 s2 s3, lcd_graphics_plot_byte rev x y b s = some s1
      ∧ lcd_graphics_move rev x y s1 = some s2
      ∧ lcd_read_data rev s2 = some (b, s3) := by
  have hp := move_pos_lt x y
  obtain ⟨t1, h1, _, hmem1, hcur1, _⟩ := move_spec rev x y s
  obtain ⟨s2, h2, _, hmem2, hcur2, _⟩ := move_spec rev x y
    { pins := pinsAfterWrite rev b, ctrl := t1.ctrl.send LCD_CMD_WRITE_DATA b }
  refine ⟨{ pins := pinsAfterWrite rev b, ctrl := t1.ctrl.send LCD_CMD_WRITE_DATA b }, s2,
    { pins := pinsAfterRead rev, ctrl := s2.ctrl.recv }, ?_, h2, ?_⟩
  · simp only [lcd_graphics_plot_byte, h1, lcd_graphics_draw_byte, lcd_write_command_eq]
  · have hval : s2.ctrl.mem s2.ctrl.cursor % 256 = b := by
      rw [hmem2, hcur2]
      show (t1.ctrl.send LCD_CMD_WRITE_DATA b).mem _ % 256 = b
      rw [send_write_data_mem, hcur1, Function.update_same, Nat.mod_mod, Nat.mod_eq_of_lt hb]
    rw [lcd_read_data_eq, hval]

/-- C3 on the reversed-wiring board at `(8, 3)` with byte `0xA5`. -/
theorem plot_byte_read_back_witness :
    (0xA5 < 256) ∧ ∃ s1 s2 s3, lcd_graphics_plot_byte true 8 3 0xA5 demoState = some s1
      ∧ lcd_graphics_move true 8 3 s1 = some s2
      ∧ lcd_read_data true s2 = some (0xA5, s3) :=
  ⟨by decide, plot_byte_read_back true 8 3 0xA5 demoState (by decide)⟩

/-- C4: from every state, `lcd_graphics_clear()` returns; it first moves the cursor to
address 0, then issues exactly `(LCD_WIDTH*LCD_HEIGHT)/8` write-data commands with operand
0 and nothing else; afterwards every byte of the `LCD_WIDTH/8 x LCD_HEIGHT` surface is zero,
and a second clear leaves the same surface. -/
theorem lcd_graphics_clear_zeroes_surface (rev : Bool) (s : State) :
    ∃ s0 s1 s2, lcd_graphics_move rev 0 0 s = some s0 ∧ s0.ctrl.cursor = 0
      ∧ lcd_graphics_clear rev s = some s1
      ∧ s1.ctrl.log = s.ctrl.log
          ++ [Xfer.write LCD_CMD_CURSOR_LA 0, Xfer.write LCD_CMD_CURSOR_HA 0]
          ++ List.replicate ((LCD_WIDTH * LCD_HEIGHT) / 8) (Xfer.write LCD_CMD_WRITE_DATA 0)
      ∧ (∀ a, a < (LCD_WIDTH / 8) * LCD_HEIGHT → s1.ctrl.mem a = 0)
      ∧ lcd_graphics_clear rev s1 = some s2
      ∧ (∀ a, a < (LCD_WIDTH / 8) * LCD_HEIGHT → s2.ctrl.mem a = s1.ctrl.mem a) := by
  obtain ⟨s0, s1, h0, hcur0, h1, hmem1, hlog1⟩ := clear_spec rev s
  obtain ⟨_, s2, _, _, h2, hmem2, _⟩ := clear_spec rev s1
  refine ⟨s0, s1, s2, h0, hcur0, h1, hlog1, ?_, h2, ?_⟩
  · intro a ha
    simp only [LCD_WIDTH, LCD_HEIGHT] at ha
    rw [hmem1 a, if_pos (by omega)]
  · intro a ha
    simp only [LCD_WIDTH, LCD_HEIGHT] at ha
    rw [hmem2 a, hmem1 a, if_pos (by omega), if_pos (by omega)]

/-- C4 on `demoState`, last byte of the surface. -/
theorem lcd_graphics_clear_zeroes_surface_witness :
    (1599 < (LCD_WIDTH / 8) * LCD_HEIGHT)
      ∧ ∃ s1 s2, lcd_graphics_clear true demoState = some s1 ∧ s1.ctrl.mem 1599 = 0
          ∧ lcd_graphics_clear true s1 = some s2 ∧ s2.ctrl.mem 1599 = s1.ctrl.mem 1599 := by
  obtain ⟨_, s1, s2, _, _, h1, _, hz, h2, hsame⟩ :=
    lcd_graphics_clear_zeroes_surface true demoState
  exact ⟨by decide, s1, s2, h1, hz 1599 (by decide), h2, hsame 1599 (by decide)⟩

/-- C5 as stated fails: `lcd_scroll_screen(0)` on `demoState` does complete bus transfers
(the log grows) and changes the first byte of the surface. -/
theorem scroll_zero_is_not_a_noop :
    ∃ s2, lcd_scroll_screen false 0 (fun _ => 0) demoState = some s2
      ∧ s2.ctrl.log ≠ demoState.ctrl.log
      ∧ s2.ctrl.mem 0 ≠ demoState.ctrl.mem 0 := by
  obtain ⟨_, _, s2, _, h2, hmem, L, _, hlog, _, _, hw⟩ :=
    scroll_spec false 0 (fun _ => 0) demoState (by omega)
  refine ⟨s2, h2, ?_, ?_⟩
  · intro hl
    rw [hlog] at hl
    have hnil : L = [] := by
      simpa [demoState, blankLog] using hl
    rw [hnil] at hw
    simp [countIr_nil] at hw
  · rw [hmem]
    simp [demoState]

/-- C5 amended: `lcd_scroll_screen(0)` returns from every state and is not free of bus
transfers.  There is no guard for `lines = 0`: the first loop makes one pass per row
`r = 0 .. LCD_HEIGHT-1`, in ascending order, and the blanking loop runs zero times (the
result is the result of the first loop and nothing follows the last pass).  Each pass
moves the cursor to the start of row `r`, reads display data, moves the cursor to the
start of row `r` again and issues exactly `LCD_WIDTH/8` write-data commands whose operands
are, in order, the bytes `vals r` returned by the last `LCD_WIDTH/8` reads of the pass;
afterwards row `r` of the display memory holds exactly `vals r`.  No byte outside the
surface is changed, and every byte of row `r` is (mod 256) a byte the display held before
the call at an address from the start of row `r` to the start of row `r+1`. -/
theorem scroll_zero_rewrites_every_row (rev : Bool) (data0 : Nat → Nat) (s : State) :
    ∃ d1 s2, relocateLoop rev 0 0 data0 s = some (d1, s2)
      ∧ lcd_scroll_screen rev 0 data0 s = some s2
      ∧ (∃ pre vals : Nat → List Nat, (∀ r, (vals r).length = LCD_WIDTH / 8)
          ∧ s2.ctrl.log = s.ctrl.log ++ rewriteLog pre vals 0 LCD_HEIGHT
          ∧ (∀ r, r < LCD_HEIGHT →
              (List.range' ((LCD_WIDTH / 8) * r) (LCD_WIDTH / 8)).map s2.ctrl.mem = vals r))
      ∧ (∀ a, (LCD_WIDTH / 8) * LCD_HEIGHT ≤ a → s2.ctrl.mem a = s.ctrl.mem a)
      ∧ (∀ a, a < (LCD_WIDTH / 8) * LCD_HEIGHT →
          ∃ src, (LCD_WIDTH / 8) * (a / (LCD_WIDTH / 8)) ≤ src
            ∧ src ≤ (LCD_WIDTH / 8) * (a / (LCD_WIDTH / 8)) + LCD_WIDTH / 8
            ∧ s2.ctrl.mem a = s.ctrl.mem src % 256) := by
  obtain ⟨d1, s1, h1, hmem, hlog⟩ :=
    relocateLoop_log rev 0 80 0 data0 s (le_refl 0) (by omega)
  have h2 : lcd_scroll_screen rev 0 data0 s = some s1 := by
    have hto : (((LCD_HEIGHT : Int) - ((0 : Nat) : Int)) % 256).toNat = 80 := by
      simp only [LCD_HEIGHT]
      omega
    simp only [lcd_scroll_screen, Nat.zero_mod, h1, hto]
    exact blankLoop_skip rev 80 s1 (le_refl 80)
  have hw : LCD_WIDTH / 8 = 20 := rfl
  have hh : LCD_HEIGHT = 80 := rfl
  rw [hw, hh]
  refine ⟨d1, s1, h1, h2,
    ⟨fun r => [s.ctrl.mem (20 * r) % 256],
     fun r => (List.range' (20 * r + 1) 20).map (fun a => s.ctrl.mem a % 256), ?_, ?_, ?_⟩,
    ?_, ?_⟩
  · intro r
    simp
  · rw [hlog, relocLog_zero_eq_rewriteLog]
  · intro r hr
    have e1 : List.range' (20 * r) 20 = (List.range' 0 20).map (fun t => 20 * r + t) :=
      (List.map_add_range' (20 * r) 0 20 1).symm
    have e2 : List.range' (20 * r + 1) 20 = (List.range' 0 20).map (fun t => 20 * r + 1 + t) :=
      (List.map_add_range' (20 * r + 1) 0 20 1).symm
    show (List.range' (20 * r) 20).map s1.ctrl.mem
      = (List.range' (20 * r + 1) 20).map (fun a => s.ctrl.mem a % 256)
    rw [e1, e2, List.map_map, List.map_map]
    apply List.map_congr_left
    intro t ht
    have ht2 := List.mem_range'_1.mp ht
    simp only [Function.comp_apply]
    rw [hmem (20 * r + t), if_pos (by omega)]
    have e3 : 20 * r + t + 20 * 0 + 1 = 20 * r + 1 + t := by omega
    rw [e3]
  · intro a ha
    rw [hmem a, if_neg (by omega)]
  · intro a ha
    refine ⟨a + 1, by omega, by omega, ?_⟩
    rw [hmem a, if_pos (by omega)]

/-- C5 amended, on `demoState`: the byte at address 1700, behind the surface, keeps its
value, and the byte at address 5 of row 0 is a byte row 0 or the start of row 1 held. -/
theorem scroll_zero_rewrites_every_row_witness :
    ((LCD_WIDTH / 8) * LCD_HEIGHT ≤ 1700 ∧ 5 < (LCD_WIDTH / 8) * LCD_HEIGHT)
      ∧ ∃ s2, lcd_scroll_screen true 0 (fun _ => 0) demoState = some s2
          ∧ s2.ctrl.mem 1700 = demoState.ctrl.mem 1700
          ∧ ∃ src, src ≤ 20 ∧ s2.ctrl.mem 5 = demoState.ctrl.mem src % 256 := by
  obtain ⟨_, s2, _, h2, _, hout, hin⟩ :=
    scroll_zero_rewrites_every_row true (fun _ => 0) demoState
  obtain ⟨src, _, hsrc, hval⟩ := hin 5 (by decide)
  exact ⟨by decide, s2, h2, hout 1700 (by decide), src, hsrc, hval⟩

/-- C6: from every state, `lcd_scroll_screen(LCD_HEIGHT)` and `lcd_graphics_clear()` both
return and leave the same display memory, zero on the whole surface; in the scroll the
relocation loop runs zero times and the transfers are exactly those of blanking the rows
`0 .. LCD_HEIGHT-1`. -/
theorem scroll_full_height_eq_clear (rev : Bool) (data0 : Nat → Nat) (s : State) :
    ∃ s1 s2, lcd_scroll_screen rev LCD_HEIGHT data0 s = some s1
      ∧ lcd_graphics_clear rev s = some s2
      ∧ (∀ a, s1.ctrl.mem a = s2.ctrl.mem a)
      ∧ (∀ a, a < (LCD_WIDTH / 8) * LCD_HEIGHT → s1.ctrl.mem a = 0 ∧ s2.ctrl.mem a = 0)
      ∧ relocateLoop rev LCD_HEIGHT LCD_HEIGHT data0 s = some (data0, s)
      ∧ s1.ctrl.log = s.ctrl.log ++ blankLog 0 LCD_HEIGHT := by
  obtain ⟨d1, t1, s1, h1, hs1, hmem1, L, hlogt, hlog1, _, _, _⟩ :=
    scroll_spec rev 80 data0 s (le_refl 80)
  obtain ⟨_, s2, _, _, hs2, hmem2, _⟩ := clear_spec rev s
  have hskip := relocateLoop_skip rev 80 80 data0 s (by omega)
  have ht : t1 = s := by
    rw [h1] at hskip
    exact (Prod.mk.inj (Option.some.inj hskip)).2
  subst ht
  have hL : L = [] := by
    have := hlogt
    simpa using this
  subst hL
  refine ⟨s1, s2, hs1, hs2, ?_, ?_, hskip, ?_⟩
  · intro a
    rw [hmem1 a, hmem2 a]
    by_cases ha : a < 1600
    · rw [if_neg (by omega), if_pos (by omega), if_pos ha]
    · rw [if_neg (by omega), if_neg (by omega), if_neg ha]
  · intro a ha
    simp only [LCD_WIDTH, LCD_HEIGHT] at ha
    rw [hmem1 a, hmem2 a, if_neg (by omega), if_pos (by omega), if_pos (by omega)]
    exact ⟨rfl, rfl⟩
  · rw [hlog1]
    simp [LCD_HEIGHT]

/-- C6 on `demoState`, first and last byte of the surface. -/
theorem scroll_full_height_eq_clear_witness :
    (1599 < (LCD_WIDTH / 8) * LCD_HEIGHT)
      ∧ ∃ s1 s2, lcd_scroll_screen false LCD_HEIGHT (fun _ => 0) demoState = some s1
          ∧ lcd_graphics_clear false demoState = some s2
          ∧ s1.ctrl.mem 0 = 0 ∧ s2.ctrl.mem 0 = 0
          ∧ s1.ctrl.mem 1599 = 0 ∧ s2.ctrl.mem 1599 = 0 := by
  obtain ⟨s1, s2, h1, h2, _, hz, _, _⟩ :=
    scroll_full_height_eq_clear false (fun _ => 0) demoState
  exact ⟨by decide, s1, s2, h1, h2, (hz 0 (by decide)).1, (hz 0 (by decide)).2,
    (hz 1599 (by decide)).1, (hz 1599 (by decide)).2⟩

/-- C7 (code defect, evaluated): `lcd_scroll_screen(81)` on `demoState` returns with the
byte at address 1 still 1, where scrolling by at least the whole height should leave the
surface zero.  The counter of the loop commented "Clear the bottom of the screen" starts at
`80 - 81` truncated to eight bits, i.e. 255, which is not below `LCD_HEIGHT`, so nothing
is blanked. -/
theorem scroll_81_clears_nothing :
    ∃ s2, lcd_scroll_screen false 81 (fun _ => 0) demoState = some s2 ∧ s2.ctrl.mem 1 = 1 :=
  ⟨demoState, scroll_beyond false 81 (fun _ => 0) demoState (by omega) (by omega), rfl⟩

/-- What the code does for `LCD_HEIGHT ≤ n ≤ 255`: `lcd_scroll_screen(n)` returns and
performs no row relocation.  For `n = LCD_HEIGHT` every byte of the surface ends up zero;
for `LCD_HEIGHT < n ≤ 255` the blanking loop is not entered either, no transfer takes
place and the state is unchanged. -/
theorem scroll_at_or_beyond_height (rev : Bool) (n : Nat) (data0 : Nat → Nat) (s : State)
    (h1 : LCD_HEIGHT ≤ n) (h2 : n ≤ 255) :
    relocateLoop rev n n data0 s = some (data0, s)
      ∧ ∃ s2, lcd_scroll_screen rev n data0 s = some s2
          ∧ (n = LCD_HEIGHT → ∀ a, a < (LCD_WIDTH / 8) * LCD_HEIGHT → s2.ctrl.mem a = 0)
          ∧ (LCD_HEIGHT < n → s2 = s) := by
  simp only [LCD_HEIGHT] at h1
  refine ⟨relocateLoop_skip rev n n data0 s (by omega), ?_⟩
  by_cases h : n = 80
  · subst h
    obtain ⟨_, _, s2, _, hs2, hmem, _⟩ := scroll_spec rev 80 data0 s (le_refl 80)
    refine ⟨s2, hs2, ?_, ?_⟩
    · intro _ a ha
      simp only [LCD_WIDTH, LCD_HEIGHT] at ha
      rw [hmem a, if_neg (by omega), if_pos (by omega)]
    · intro hlt
      simp only [LCD_HEIGHT] at hlt
      omega
  · refine ⟨s, scroll_beyond rev n data0 s (by omega) h2, ?_, ?_⟩
    · intro hn
      simp only [LCD_HEIGHT] at hn
      omega
    · intro _
      rfl

/-- The previous statement at `n = 255` on `demoState`: nothing is relocated and the state
is returned as it was. -/
theorem scroll_at_or_beyond_height_witness :
    (LCD_HEIGHT ≤ 255 ∧ 255 ≤ 255 ∧ LCD_HEIGHT < 255)
      ∧ lcd_scroll_screen true 255 (fun _ => 0) demoState = some demoState := by
  obtain ⟨_, s2, h, _, hsame⟩ :=
    scroll_at_or_beyond_height true 255 (fun _ => 0) demoState (by decide) (by decide)
  have e := hsame (by decide)
  subst e
  exact ⟨by decide, h⟩

set_option maxRecDepth 100000 in
/-- C8: the C function `reverse` is an involution on 8-bit values and is the true bit
reversal: bit `i` of `reverse(b)` is bit `7-i` of `b`, for every `b` in `0..255` and `i` in
`0..7`. -/
theorem reverse_is_bit_reversal :
    ∀ b : Fin 256, reverse true (reverse true b.val) = b.val
      ∧ ∀ i : Fin 8, (reverse true b.val).testBit i.val = b.val.testBit (7 - i.val) := by
  decide

/-- C9: for every `x`, `y`, `state` and every value of the constant `PIXEL_ON`,
`lcd_graphics_plot_pixel(x, y, state)` returns, first programs the cursor exactly as
`lcd_graphics_move(x, y)` does and then issues exactly one further command with operand
`x mod 8`: set-bit when `state` (an `unsigned char`) equals `PIXEL_ON`, clear-bit
otherwise. -/
theorem lcd_graphics_plot_pixel_bit_offset (rev : Bool) (PIXEL_ON x y state : Nat) (s : State) :
    ∃ s1 s2, lcd_graphics_move rev x y s = some s1
      ∧ lcd_graphics_plot_pixel rev PIXEL_ON x y state s = some s2
      ∧ lcd_write_command rev
          (if state % 256 = PIXEL_ON then LCD_CMD_SET_BIT else LCD_CMD_CLEAR_BIT) (x % 8) s1
          = some s2
      ∧ s2.ctrl.log = s1.ctrl.log ++
          [Xfer.write (if state % 256 = PIXEL_ON then LCD_CMD_SET_BIT else LCD_CMD_CLEAR_BIT)
            (x % 8)] := by
  obtain ⟨s1, h1, _⟩ := move_spec rev x y s
  have hmv : lcd_graphics_move rev (x % 65536) y s = some s1 := by
    rw [← h1]
    simp only [lcd_graphics_move, Nat.mod_mod]
  have hop : x % 65536 % 8 % 256 = x % 8 := by omega
  have hop2 : x % 8 % 256 = x % 8 := by omega
  refine ⟨s1, { pins := pinsAfterWrite rev (x % 8),
                 ctrl := s1.ctrl.send
                   (if state % 256 = PIXEL_ON then LCD_CMD_SET_BIT else LCD_CMD_CLEAR_BIT)
                   (x % 8) }, h1, ?_, lcd_write_command_eq rev _ _ s1, ?_⟩
  · simp only [lcd_graphics_plot_pixel, hmv, hop]
    by_cases hst : state % 256 = PIXEL_ON
    · simp only [hst, if_true, lcd_write_command_eq]
    · simp only [hst, if_false, lcd_write_command_eq]
  · show (s1.ctrl.send _ (x % 8)).log = _
    rw [send_log, hop2]
    by_cases hst : state % 256 = PIXEL_ON
    · simp [hst, LCD_CMD_SET_BIT, and15_15]
    · simp [hst, LCD_CMD_CLEAR_BIT, and15_14]

/-- C9 at `x = 11`, `y = 2`, `state = PIXEL_ON = 0xFF`: one set-bit command with operand 3
follows the cursor move. -/
theorem lcd_graphics_plot_pixel_bit_offset_witness :
    ∃ s1 s2, lcd_graphics_move false 11 2 demoState = some s1
      ∧ lcd_graphics_plot_pixel false 0xFF 11 2 0xFF demoState = some s2
      ∧ s2.ctrl.log = s1.ctrl.log ++ [Xfer.write LCD_CMD_SET_BIT 3] := by
  obtain ⟨s1, s2, h1, h2, _, hlog⟩ :=
    lcd_graphics_plot_pixel_bit_offset false 0xFF 11 2 0xFF demoState
  exact ⟨s1, s2, h1, h2, hlog⟩

/-- C10 as stated fails for `lcd_read_data`: on `demoState` it returns with the read/write
line high. -/
theorem lcd_read_data_leaves_rw_high :
    ∃ b s1, lcd_read_data false demoState = some (b, s1) ∧ s1.pins.rw = true :=
  ⟨_, _, lcd_read_data_eq false demoState, rfl⟩

/-- C10 amended: from every starting state and for every argument, `lcd_write_command`
returns with the data port in output direction and RS, RW and E low; `lcd_read_data`
returns with the data port in output direction and RS and E low, while RW is left high
(the read phase raises it and nothing lowers it before the return). -/
theorem bus_state_after_transfer (rev : Bool) (command data : Nat) (s : State) :
    (∃ s1, lcd_write_command rev command data s = some s1
        ∧ s1.pins.ddr = 0xFF ∧ s1.pins.rs = false ∧ s1.pins.rw = false ∧ s1.pins.e = false)
      ∧ (∃ b s1, lcd_read_data rev s = some (b, s1)
        ∧ s1.pins.ddr = 0xFF ∧ s1.pins.rs = false ∧ s1.pins.rw = true ∧ s1.pins.e = false) :=
  ⟨⟨_, lcd_write_command_eq rev command data s, rfl, rfl, rfl, rfl⟩,
   ⟨_, _, lcd_read_data_eq rev s, rfl, rfl, rfl, rfl⟩⟩

end Lc7981
